import Mathlib

/-!
# Verification of the cyberspace node scheduler and evaluators

A shallow embedding of the dataflow core of the `cyberspace` game
(`src/main.rs`, `src/nodes.rs`): hex-grid tiles, node instances with a
lifecycle state machine, port wiring by spatial adjacency, the activation
scheduler (`tick_nodes`), reachability pruning (`disable_disconnected`),
and the per-kind evaluators.

Modelling conventions:
* Bevy `Entity` ids are `Nat`; component stores are functions
  `Nat → Option _` (`none` = the entity does not exist / lacks the component).
* The tile grid (`Map.storage` composed with the `TileType` component of
  each tile entity) is a function `Hex → Option TileType`, `none` meaning
  out of bounds (`HexagonalMap::get` returning `None`).
* `f32` values flowing through ports are modelled as `ℚ`; every arithmetic
  operation the claims touch (subtraction, products, comparisons against
  small integer thresholds, counter increments) is exact at these ranges.
* Rust code paths that panic (`expect`, `unwrap` on absent tiles,
  `unreachable!()`) are modelled explicitly with the `Panics` wrapper.
* `HashMap<Hex, Entity>` wiring is a `List (Hex × Nat)` in its iteration
  order; `HashSet<Hex>` visited sets are `List Hex` with membership.
-/

namespace Cyberspace

/-- Axial hex coordinate (`hexx::Hex`). -/
structure Hex where
  x : Int
  y : Int
deriving DecidableEq, Repr

/-- `Hex` addition (`node.position + direction`). -/
def Hex.add (a b : Hex) : Hex := ⟨a.x + b.x, a.y + b.y⟩

/-- The six hex edge directions used by `all_neighbors` (hexx axial basis). -/
def hexDirections : List Hex :=
  [⟨1, 0⟩, ⟨1, -1⟩, ⟨0, -1⟩, ⟨-1, 0⟩, ⟨-1, 1⟩, ⟨0, 1⟩]

/-- `tile.all_neighbors()`: the six adjacent cells. -/
def hexNeighbors (h : Hex) : List Hex := hexDirections.map (Hex.add h)

/-- Hex distance (`hexx::Hex::distance_to`):
`((x.abs + y.abs + (x+y).abs) / 2)` of the coordinate difference. -/
def Hex.distanceTo (a b : Hex) : Nat :=
  ((a.x - b.x).natAbs + (a.y - b.y).natAbs + ((a.x + a.y) - (b.x + b.y)).natAbs) / 2

/-- Runtime values flowing through ports (`nodes::Val`).
`f32` components are modelled as `ℚ`. -/
inductive Val where
  | empty
  | entity (e : Nat)
  | vec (x y : ℚ)
  | number (n : ℚ)
  | text (s : String)
  | list (l : List Val)

/-- `Result<Val, ()>`, the payload of `CyberState::Done`. -/
inductive CRes where
  | ok (v : Val)
  | err

/-- Node lifecycle state (`nodes::CyberState`). -/
inductive CyberState where
  | idle
  | activationRequest
  | triggered
  | done (r : CRes)
  | disabled

/-- Static port description (`nodes::PortMeta`). -/
structure PortMeta where
  name : String
  desc : String
  vt : Nat       -- `ValType` tag; only `name` is consulted by the scheduler core
  constant : Bool

/-- Per-instance wiring (`nodes::PortCfg`): direction ↦ port-meta entity,
in `HashMap` iteration order, plus the optional embedded constant. -/
structure PortCfg where
  inputs : List (Hex × Nat)
  constant : Option Val

/-- Tile contents (`main::TileType`). -/
inductive TileType where
  | unoccupied
  | terrain (e : Nat)
  | heart (e : Nat)
  | cyberNode (meta e : Nat)
deriving DecidableEq, Repr

/-- Node kind tag (`nodes::CyberNodes`). -/
inductive CyberNodes where
  | wip
  | lazor
  | list
  | debug
  | project
  | shock
  | plasma
  | orbital
  | rocketLauncher
  | closestEntity
  | entityDirection
  | nearbyEntities
  | entityPos
  | constantNumber
  | numberSub
  | storage
  | numberMul
  | vectorMul
  | vectorNeg
  | listLength
  | vectorLen
  | vector
deriving DecidableEq, Repr

/-- One placed node instance: the row `(Entity, &PortCfg, &MetaLink, &HexPos)`
of the `tick_nodes` query, with the kind tag already resolved through
`MetaLink` (`metas.get(ml.0)`). -/
structure Node where
  e : Nat
  cfg : PortCfg
  kind : CyberNodes
  pos : Hex

/-- Computations that may hit a Rust panic (`expect` / `unwrap` /
`unreachable!()`). -/
inductive Panics (α : Type) where
  | ret (a : α)
  | panicked
deriving Repr

/-- The grid: `Map.storage.get` composed with each tile entity's `TileType`
component. `none` is an out-of-bounds cell. -/
abbrev Grid := Hex → Option TileType

/-- The `CyberState` component store. -/
abbrev States := Nat → Option CyberState

/-- `nodes::port_by_name`: find the direction bound to a port with the given
name, then fetch the tile behind it. The source uses `Map::fetch_panic`
(`expect`, panics out of bounds) and `unreachable!()` when the fetched tile is
not a `CyberNode`. -/
def port_by_name (name : String) (pos : Hex) (map : Grid) (cfg : PortCfg)
    (metas : Nat → PortMeta) : Panics (Option Nat) :=
  match cfg.inputs.find? (fun he => (metas he.2).name == name) with
  | none => .ret none
  | some he =>
    match map (pos.add he.1) with
    | none => .panicked                          -- Map::fetch_panic: oob tile
    | some (TileType.cyberNode _ e) => .ret (some e)
    | some _ => .panicked                        -- unreachable!()

/-- `nodes::fetch_port_data`: resolve a port and read the neighbor's cached
`Done(Ok(_))` value; any failure is `Err(())`. -/
def fetch_port_data (name : String) (pos : Hex) (map : Grid) (cfg : PortCfg)
    (metas : Nat → PortMeta) (states : States) : Panics CRes :=
  match port_by_name name pos map cfg metas with
  | .panicked => .panicked
  | .ret none => .ret .err                       -- port not configured
  | .ret (some target) =>
    match states target with
    | none => .ret .err                          -- port tile no longer exists
    | some (CyberState.done (CRes.ok v)) => .ret (.ok v)
    | some _ => .ret .err                        -- unexpected state

/-- Fetch a list of ports in order, propagating panics
(the evaluators' `ports.iter().flat_map(|p| fetch_port_data(..).ok())`,
keeping the per-port `Result`s). -/
def fetchPorts (names : List String) (pos : Hex) (map : Grid) (cfg : PortCfg)
    (metas : Nat → PortMeta) (states : States) : Panics (List CRes) :=
  match names with
  | [] => .ret []
  | n :: ns =>
    match fetch_port_data n pos map cfg metas states with
    | .panicked => .panicked
    | .ret r =>
      match fetchPorts ns pos map cfg metas states with
      | .panicked => .panicked
      | .ret rs => .ret (r :: rs)

/-- World side effects emitted by evaluators (damage, spawned visuals). -/
inductive Effect where
  | spawnBeam (target : Nat)
  | damage (target : Nat) (amount : ℚ)
  | spawnPlasmaZone (charge : Nat)

/-- Outcome of one evaluator invocation on its own node:
`newState = none` means the evaluator `continue`d without writing the node's
own `CyberState`. -/
structure EvalResult where
  newState : Option CyberState
  effects : List Effect

/-- `nodes::lazor_tick` for one `TickNode<Lazor>` event: resolve the
`"target"` port, require a `Done(Ok(Entity _))` neighbor value, check the
target still exists (`targets.get_mut`), then spawn the beam, apply 15
damage and finish `Done(Ok(Empty))`. An unconfigured port writes
`Done(Err)`; a vanished or wrongly-typed neighbor value skips the event
without writing the node's state. `targetHp` is the
`Query<&mut Health, With<TargetableEntity>>` store. -/
def lazor_tick (pos : Hex) (cfg : PortCfg) (map : Grid) (metas : Nat → PortMeta)
    (states : States) (targetHp : Nat → Option ℚ) : Panics EvalResult :=
  match port_by_name "target" pos map cfg metas with
  | .panicked => .panicked
  | .ret none => .ret ⟨some (.done .err), []⟩    -- 'target' port not configured
  | .ret (some target) =>
    match states target with
    | none => .ret ⟨none, []⟩                    -- port tile no longer exists
    | some (CyberState.done (CRes.ok (Val.entity tent))) =>
      match targetHp tent with
      | none => .ret ⟨some (.done .err), []⟩     -- entity no longer exists
      | some _ => .ret ⟨some (.done (.ok .empty)),
          [Effect.spawnBeam tent, Effect.damage tent 15]⟩
    | some _ => .ret ⟨none, []⟩                  -- changed state / invalid type

/-- `nodes::vec_tick` (VectorCreate): build `Vec(x, y)` from the `"x"` and
`"y"` number ports; on any fetch failure or type mismatch the event is
skipped without writing the node's state. -/
def vec_tick (pos : Hex) (cfg : PortCfg) (map : Grid) (metas : Nat → PortMeta)
    (states : States) : Panics (Option CyberState) :=
  match fetch_port_data "x" pos map cfg metas states with
  | .panicked => .panicked
  | .ret (CRes.ok (Val.number x)) =>
    match fetch_port_data "y" pos map cfg metas states with
    | .panicked => .panicked
    | .ret (CRes.ok (Val.number y)) => .ret (some (.done (.ok (.vec x y))))
    | .ret _ => .ret none                        -- no or invalid y port
  | .ret _ => .ret none                          -- no or invalid x port

/-- `nodes::vecneg_tick`: negate the `"vector"` port; skip on failure. -/
def vecneg_tick (pos : Hex) (cfg : PortCfg) (map : Grid) (metas : Nat → PortMeta)
    (states : States) : Panics (Option CyberState) :=
  match fetch_port_data "vector" pos map cfg metas states with
  | .panicked => .panicked
  | .ret (CRes.ok (Val.vec x y)) => .ret (some (.done (.ok (.vec (-x) (-y)))))
  | .ret _ => .ret none

/-- `nodes::constant_tick`: output the embedded constant, or `Done(Err)`
when no constant is configured. -/
def constant_tick (cfg : PortCfg) : CyberState :=
  match cfg.constant with
  | none => .done .err
  | some c => .done (.ok c)

/-- The variable-arity slot names `["a","b","c","d","e"]`. -/
def slotNames : List String := ["a", "b", "c", "d", "e"]

/-- Keep the `Number` payloads of the fetched results, in port order
(the reducers' two chained `flat_map`s). -/
def resultNumbers (rs : List CRes) : List ℚ :=
  rs.filterMap (fun r =>
    match r with
    | CRes.ok (Val.number x) => some x
    | _ => none)

/-- Keep the `Vec` payloads of the fetched results, in port order. -/
def resultVecs (rs : List CRes) : List (ℚ × ℚ) :=
  rs.filterMap (fun r =>
    match r with
    | CRes.ok (Val.vec x y) => some (x, y)
    | _ => none)

/-- Keep the `Ok` payloads of the fetched results, in port order. -/
def resultVals (rs : List CRes) : List Val :=
  rs.filterMap (fun r =>
    match r with
    | CRes.ok v => some v
    | _ => none)

/-- `Iterator::reduce(|acc, v| acc - v).unwrap_or(0.)`. -/
def reduceSub (l : List ℚ) : ℚ :=
  match l with
  | [] => 0
  | x :: xs => xs.foldl (fun a b => a - b) x

/-- `Iterator::reduce(|acc, v| acc * v).unwrap_or(0.)`. -/
def reduceMul (l : List ℚ) : ℚ :=
  match l with
  | [] => 0
  | x :: xs => xs.foldl (fun a b => a * b) x

/-- Pairwise-product reduction of vectors, `unwrap_or(Vec2::splat(0.))`. -/
def reduceVecMul (l : List (ℚ × ℚ)) : ℚ × ℚ :=
  match l with
  | [] => (0, 0)
  | x :: xs => xs.foldl (fun a b => (a.1 * b.1, a.2 * b.2)) x

/-- `nodes::numsub_tick`: left-fold subtraction over the `Number` values of
the slots `"a"`..`"e"` that fetched successfully, `0` if none did. -/
def numsub_tick (pos : Hex) (cfg : PortCfg) (map : Grid) (metas : Nat → PortMeta)
    (states : States) : Panics CyberState :=
  match fetchPorts slotNames pos map cfg metas states with
  | .panicked => .panicked
  | .ret rs => .ret (.done (.ok (.number (reduceSub (resultNumbers rs)))))

/-- `nodes::nummul_tick`: product over the present `Number` slots. -/
def nummul_tick (pos : Hex) (cfg : PortCfg) (map : Grid) (metas : Nat → PortMeta)
    (states : States) : Panics CyberState :=
  match fetchPorts slotNames pos map cfg metas states with
  | .panicked => .panicked
  | .ret rs => .ret (.done (.ok (.number (reduceMul (resultNumbers rs)))))

/-- `nodes::vecmul_tick`: pairwise product over the present `Vec` slots. -/
def vecmul_tick (pos : Hex) (cfg : PortCfg) (map : Grid) (metas : Nat → PortMeta)
    (states : States) : Panics CyberState :=
  match fetchPorts slotNames pos map cfg metas states with
  | .panicked => .panicked
  | .ret rs =>
    let v := reduceVecMul (resultVecs rs)
    .ret (.done (.ok (.vec v.1 v.2)))

/-- `nodes::list_tick` flattening loop: drop `Empty`, splice `List` elements
one level, push everything else. -/
def listFlatten (vs : List Val) : List Val :=
  vs.foldl (fun acc v =>
    match v with
    | Val.empty => acc
    | Val.list l => acc ++ l
    | x => acc ++ [x]) []

/-- `nodes::list_tick` (ListConstruct): collect the resolved `Done(Ok(_))`
slot values and flatten one level. The source resolves slots with
`port_by_name` and reads states directly; the observable per-slot outcome
coincides with `fetch_port_data`. -/
def list_tick (pos : Hex) (cfg : PortCfg) (map : Grid) (metas : Nat → PortMeta)
    (states : States) : Panics CyberState :=
  match fetchPorts slotNames pos map cfg metas states with
  | .panicked => .panicked
  | .ret rs => .ret (.done (.ok (.list (listFlatten (resultVals rs)))))

/-- `nodes::listlen_tick`: length of the `"list"` port's list, `Done(Err)`
on any fetch failure or type mismatch. -/
def listlen_tick (pos : Hex) (cfg : PortCfg) (map : Grid) (metas : Nat → PortMeta)
    (states : States) : Panics CyberState :=
  match fetch_port_data "list" pos map cfg metas states with
  | .panicked => .panicked
  | .ret (CRes.ok (Val.list l)) => .ret (.done (.ok (.number (l.length : ℚ))))
  | .ret _ => .ret (.done .err)

/-- `nodes::debug_tick`: fetch all five slots (for logging) and finish
`Done(Ok(Empty))`. -/
def debug_tick (pos : Hex) (cfg : PortCfg) (map : Grid) (metas : Nat → PortMeta)
    (states : States) : Panics CyberState :=
  match fetchPorts slotNames pos map cfg metas states with
  | .panicked => .panicked
  | .ret _ => .ret (.done (.ok .empty))

/-- `nodes::closest_tick`: the first targetable entity (in query iteration
order) whose hex position is within distance 8 of the node; `Done(Err)` if
none. `targets` carries each targetable entity with
`map.layout.world_pos_to_hex(transform.translation)` already applied. -/
def closest_tick (pos : Hex) (targets : List (Nat × Hex)) : CyberState :=
  match targets.find? (fun t => t.2.distanceTo pos ≤ 8) with
  | some t => .done (.ok (.entity t.1))
  | none => .done .err                           -- no entities in range

/-- `nodes::nearby_tick`: all targetable entities within distance 8, as a
list of `Entity` values (same hex-position abstraction as `closest_tick`). -/
def nearby_tick (pos : Hex) (targets : List (Nat × Hex)) : CyberState :=
  .done (.ok (.list (targets.filterMap (fun t =>
    if t.2.distanceTo pos ≤ 8 then some (Val.entity t.1) else none))))

/-- `nodes::tesla_tick` target loop: damage every list element that is an
`Entity` that still exists; the output counts the targets hit. -/
def tesla_core (targetHp : Nat → Option ℚ) (ts : List Val) : Nat × List Effect :=
  ts.foldl (fun acc t =>
    match t with
    | Val.entity e =>
      match targetHp e with
      | some _ => (acc.1 + 1, acc.2 ++ [Effect.damage e 5])
      | none => acc                              -- target no longer exists
    | _ => acc)                                  -- not of type entity
    (0, [])

/-- `nodes::tesla_tick` (Shock): fetch the `"targets"` list; skip the event
on failure, otherwise damage the valid targets and output their count. -/
def tesla_tick (pos : Hex) (cfg : PortCfg) (map : Grid) (metas : Nat → PortMeta)
    (states : States) (targetHp : Nat → Option ℚ) : Panics (Option EvalResult) :=
  match fetch_port_data "targets" pos map cfg metas states with
  | .panicked => .panicked
  | .ret (CRes.ok (Val.list ts)) =>
    let r := tesla_core targetHp ts
    .ret (some ⟨some (.done (.ok (.number (r.1 : ℚ)))), r.2⟩)
  | .ret _ => .ret none

/-- One `plasma_tick` activation: the stored counter after the tick, the
`res` output (`Number(res)` is written as the node's `Done` value) and
whether the zone fired. -/
structure PlasmaStep where
  counter : Nat
  res : Nat
  fired : Bool
deriving DecidableEq, Repr

/-- `nodes::plasma_tick` for one event: fetch `"target"` (skip the event if
it is not a `Vec`), fetch `"threshold"` (defaulting to `0` unless it is a
`Number`), increment the charge counter, fire and reset once
`count ≥ threshold`, store the counter and output `Number(res)`. -/
def plasma_tick (pos : Hex) (cfg : PortCfg) (map : Grid) (metas : Nat → PortMeta)
    (states : States) (prev : Option Nat) : Panics (Option PlasmaStep) :=
  match fetch_port_data "target" pos map cfg metas states with
  | .panicked => .panicked
  | .ret (CRes.ok (Val.vec _ _)) =>
    match fetch_port_data "threshold" pos map cfg metas states with
    | .panicked => .panicked
    | .ret thr =>
      let threshold : ℚ :=
        match thr with
        | CRes.ok (Val.number t) => t
        | _ => 0
      let count := prev.getD 0 + 1
      if (count : ℚ) ≥ threshold then
        .ret (some ⟨0, count, true⟩)
      else
        .ret (some ⟨count, 0, false⟩)
  | .ret _ => .ret none

/-- Readiness of one bound input direction in `tick_nodes`: the cell
`pos + dir` must be in bounds, hold a `CyberNode`, and that node's state
must be `Done(Ok(_))`. -/
def inputSatisfied (map : Grid) (states : States) (pos dir : Hex) : Bool :=
  match map (pos.add dir) with
  | none => false                                -- input oob
  | some (TileType.cyberNode _ e) =>
    match states e with
    | some (CyberState.done (CRes.ok _)) => true
    | _ => false
  | some _ => false                              -- input is not CyberNode

/-- `tick_nodes` readiness check: all directions bound in the wiring are
satisfied (`cfg.inputs.iter().map(|(ph, _)| *ph) ... .all(..)`). -/
def nodeSatisfied (map : Grid) (states : States) (n : Node) : Bool :=
  n.cfg.inputs.all (fun he => inputSatisfied map states n.pos he.1)

/-- The tick events the `tick_nodes` dispatch `match` sends for a satisfied
node: one `TickNode::<Kind>` event, except `CyberNodes::WIP` which sends
nothing (`CyberNodes::WIP => ()`). -/
def dispatchEvts (k : CyberNodes) (e : Nat) : List (CyberNodes × Nat) :=
  match k with
  | .wip => []
  | k => [(k, e)]

/-- Point update of the `CyberState` store
(`*states.get_mut(e).unwrap() = s`). -/
def setState (states : States) (e : Nat) (s : CyberState) : States :=
  fun x => if x = e then some s else states x

/-- `main::tick_nodes`: one scheduler pass over the node query, in iteration
order. Every node in `ActivationRequest` whose bound inputs are all
satisfied is dispatched (its tick event is queued) and moved to
`Triggered`; others are left as they are. Returns the updated states and
the queued events in dispatch order. -/
def tickNodesPass (map : Grid) (nodes : List Node) (states : States) :
    States × List (CyberNodes × Nat) :=
  match nodes with
  | [] => (states, [])
  | n :: ns =>
    match states n.e with
    | some CyberState.activationRequest =>
      if nodeSatisfied map states n then
        let r := tickNodesPass map ns (setState states n.e .triggered)
        (r.1, dispatchEvts n.kind n.e ++ r.2)
      else
        tickNodesPass map ns states
    | _ => tickNodesPass map ns states

/-- `main::request_nodes` for one heartbeat `Tick` event: every node not in
`Disabled` is set to `ActivationRequest`. -/
def request_nodes (states : States) : States :=
  fun e => (states e).map (fun s =>
    match s with
    | CyberState.disabled => CyberState.disabled
    | _ => CyberState.activationRequest)

/-- The components of the `NodeBundle` spawned by `main::tile_purchased`
for a picked shop item on a tile. -/
structure NodeBundleData where
  meta : Nat
  cfg : PortCfg
  state : CyberState
  pos : Hex

/-- `main::tile_purchased`: the node instance created for a purchase, with
default wiring and state `CyberState::Disabled`. -/
def tile_purchased (item : Nat) (tile : Hex) : NodeBundleData :=
  { meta := item
    cfg := { inputs := [], constant := none }
    state := .disabled
    pos := tile }

/-- The node entity occupying a cell, if the cell is in bounds and holds a
`CyberNode` tile. -/
def isNodeTile (map : Grid) (h : Hex) : Option Nat :=
  match map h with
  | some (TileType.cyberNode _ e) => some e
  | _ => none

/-- The inner neighbor loop of `main::disable_disconnected`: for each
neighbor of the popped tile, in direction order, skip non-node cells and
cells already visited; otherwise set the occupying node to `Idle` and push
the cell. Returns the updated states and the pushed cells, topmost first. -/
def visitNeighbors (map : Grid) (visited : List Hex) :
    List Hex → States → States × List Hex
  | [], states => (states, [])
  | nb :: rest, states =>
    match isNodeTile map nb with
    | none => visitNeighbors map visited rest states
    | some e =>
      if nb ∈ visited then visitNeighbors map visited rest states
      else
        let states' := fun x =>
          if x = e then (states x).map (fun _ => CyberState.idle) else states x
        let r := visitNeighbors map visited rest states'
        (r.1, r.2 ++ [nb])

/-- The `while let Some(tile) = to_visit.pop()` loop of
`main::disable_disconnected`, fuelled: the head of `toVisit` is the top of
the stack; a popped tile is inserted into `visited` before its neighbors
are scanned. Returns `none` if the fuel runs out before the stack empties. -/
def pruneLoop (map : Grid) :
    Nat → List Hex → List Hex → States → Option (States × List Hex)
  | 0, _, _, _ => none
  | _ + 1, visited, [], states => some (states, visited)
  | fuel + 1, visited, tile :: rest, states =>
    let visited' := tile :: visited
    let r := visitNeighbors map visited' (hexNeighbors tile) states
    pruneLoop map fuel visited' (r.2 ++ rest) r.1

/-- One heart's traversal in `main::disable_disconnected`, starting from the
heart's cell with an empty visited set. -/
def pruneHeart (map : Grid) (fuel : Nat) (hpos : Hex) (states : States) :
    Option States :=
  (pruneLoop map fuel [] [hpos] states).map (fun r => r.1)

/-- `main::disable_disconnected` for one `TileChanged` event: first force
every node to `Disabled`, then run every heart's traversal, reactivating
each reached node to `Idle`. -/
def disable_disconnected (map : Grid) (fuel : Nat) (hearts : List Hex)
    (states : States) : Option States :=
  let d : States := fun e => (states e).map (fun _ => CyberState.disabled)
  hearts.foldl (fun acc h => acc.bind (pruneHeart map fuel h)) (some d)

/-- Cells reachable from `start` by the pruning traversal: chains of
neighbor steps in which every visited cell (after the start) holds a
`CyberNode`. -/
inductive Reach (map : Grid) (start : Hex) : Hex → Prop where
  | base {nb : Hex} : nb ∈ hexNeighbors start → (isNodeTile map nb).isSome →
      Reach map start nb
  | step {t nb : Hex} : Reach map start t → nb ∈ hexNeighbors t →
      (isNodeTile map nb).isSome → Reach map start nb

/-- Read-only world context consulted by the evaluator systems within one
frame: the grid, the port metadata store, and the targetable-entity
subsystem (positions already converted to hex cells, and the health store). -/
structure EvalCtx where
  map : Grid
  metas : Nat → PortMeta
  targetPos : List (Nat × Hex)
  targetHp : Nat → Option ℚ

/-- The mutable per-frame simulation state the claims observe: every node's
`CyberState` and the `PlasmaCounter` components. -/
structure WState where
  states : States
  counters : Nat → Option Nat

/-- Dispatch of one queued tick event to its kind-specific evaluator
(the `FixedUpdate` `*_tick` systems reading `TickEvts<T>`). The node row is
fetched with `node.get(e.e)`; evaluators whose source `continue`s/returns on
a missing row do nothing, while `closest_tick`/`nearby_tick` `unwrap()` it
and would panic. Kinds whose evaluators depend on floating-point
world-space math (`EntityPos`, `EntityDirection`, `VectorLen`,
`RocketLauncher`, `Orbital`, `Project`) are outside this embedding and no
claim's scenario dispatches them; `Storage` has no registered event/system
in the source, and `WIP` is never dispatched. -/
def runEvt (ctx : EvalCtx) (nodes : List Node) (w : WState)
    (ev : CyberNodes × Nat) : Panics WState :=
  match nodes.find? (fun n => n.e == ev.2) with
  | none =>
    match ev.1 with
    | .closestEntity => .panicked                -- state.get_mut(tick.e).unwrap()
    | .nearbyEntities => .panicked
    | _ => .ret w
  | some n =>
    match ev.1 with
    | .constantNumber =>
      .ret { w with states := setState w.states ev.2 (constant_tick n.cfg) }
    | .debug =>
      match debug_tick n.pos n.cfg ctx.map ctx.metas w.states with
      | .panicked => .panicked
      | .ret s => .ret { w with states := setState w.states ev.2 s }
    | .lazor =>
      match lazor_tick n.pos n.cfg ctx.map ctx.metas w.states ctx.targetHp with
      | .panicked => .panicked
      | .ret r =>
        match r.newState with
        | none => .ret w
        | some s => .ret { w with states := setState w.states ev.2 s }
    | .vector =>
      match vec_tick n.pos n.cfg ctx.map ctx.metas w.states with
      | .panicked => .panicked
      | .ret none => .ret w
      | .ret (some s) => .ret { w with states := setState w.states ev.2 s }
    | .vectorNeg =>
      match vecneg_tick n.pos n.cfg ctx.map ctx.metas w.states with
      | .panicked => .panicked
      | .ret none => .ret w
      | .ret (some s) => .ret { w with states := setState w.states ev.2 s }
    | .numberSub =>
      match numsub_tick n.pos n.cfg ctx.map ctx.metas w.states with
      | .panicked => .panicked
      | .ret s => .ret { w with states := setState w.states ev.2 s }
    | .numberMul =>
      match nummul_tick n.pos n.cfg ctx.map ctx.metas w.states with
      | .panicked => .panicked
      | .ret s => .ret { w with states := setState w.states ev.2 s }
    | .vectorMul =>
      match vecmul_tick n.pos n.cfg ctx.map ctx.metas w.states with
      | .panicked => .panicked
      | .ret s => .ret { w with states := setState w.states ev.2 s }
    | .list =>
      match list_tick n.pos n.cfg ctx.map ctx.metas w.states with
      | .panicked => .panicked
      | .ret s => .ret { w with states := setState w.states ev.2 s }
    | .listLength =>
      match listlen_tick n.pos n.cfg ctx.map ctx.metas w.states with
      | .panicked => .panicked
      | .ret s => .ret { w with states := setState w.states ev.2 s }
    | .closestEntity =>
      .ret { w with states := setState w.states ev.2 (closest_tick n.pos ctx.targetPos) }
    | .nearbyEntities =>
      .ret { w with states := setState w.states ev.2 (nearby_tick n.pos ctx.targetPos) }
    | .shock =>
      match tesla_tick n.pos n.cfg ctx.map ctx.metas w.states ctx.targetHp with
      | .panicked => .panicked
      | .ret none => .ret w
      | .ret (some r) =>
        match r.newState with
        | none => .ret w
        | some s => .ret { w with states := setState w.states ev.2 s }
    | .plasma =>
      match plasma_tick n.pos n.cfg ctx.map ctx.metas w.states (w.counters ev.2) with
      | .panicked => .panicked
      | .ret none => .ret w
      | .ret (some step) =>
        .ret { states := setState w.states ev.2 (.done (.ok (.number (step.res : ℚ))))
               counters := fun x => if x = ev.2 then some step.counter else w.counters x }
    | _ => .ret w

/-- Process the queued tick events in order, propagating panics. -/
def evalPhase (ctx : EvalCtx) (nodes : List Node) :
    List (CyberNodes × Nat) → WState → Panics WState
  | [], w => .ret w
  | ev :: evs, w =>
    match runEvt ctx nodes w ev with
    | .panicked => .panicked
    | .ret w' => evalPhase ctx nodes evs w'

/-- One engine frame of the activation machinery. In the source, the
`tick_nodes` scheduler and the evaluator systems sit in plain (unordered)
`FixedUpdate` tuples and conflict on `&mut CyberState`, so within a frame
they run serialized in an arbitrary relative order; and the tick events are
sent through deferred `Commands`, so events queued by the pass in one frame
become readable by the evaluator systems only in a later frame. A frame
therefore takes the frame's deliverable events split into `pre` (consumed
by evaluator systems that happened to run before `tick_nodes` this frame)
and `post` (consumed after it); any legal serialization is some such
split. It returns the end-of-frame state together with the events the pass
queued for delivery in a subsequent frame. -/
def frameInterleaved (ctx : EvalCtx) (nodes : List Node)
    (pre post : List (CyberNodes × Nat)) (w : WState) :
    Panics (WState × List (CyberNodes × Nat)) :=
  match evalPhase ctx nodes pre w with
  | .panicked => .panicked
  | .ret w1 =>
    match evalPhase ctx nodes post
        { w1 with states := (tickNodesPass ctx.map nodes w1.states).1 } with
    | .panicked => .panicked
    | .ret w2 => .ret (w2, (tickNodesPass ctx.map nodes w1.states).2)

/-! ## Concrete fixtures used by witnesses and counterexamples -/

/-- A port-metadata store carrying the port names the evaluators look up. -/
def fxMetas : Nat → PortMeta := fun n =>
  match n with
  | 1 => ⟨"a", "first", 0, false⟩
  | 2 => ⟨"b", "second", 0, false⟩
  | 3 => ⟨"c", "third", 0, false⟩
  | 4 => ⟨"d", "fourth", 0, false⟩
  | 5 => ⟨"e", "fifth", 0, false⟩
  | 6 => ⟨"target", "the target", 0, false⟩
  | 7 => ⟨"threshold", "ticks to collect", 0, false⟩
  | 8 => ⟨"x", "first number", 0, false⟩
  | 9 => ⟨"y", "second number", 0, false⟩
  | _ => ⟨"?", "", 0, false⟩

/-- Wiring with the `"target"` port bound to the east neighbor. -/
def fxCfgTarget : PortCfg := ⟨[(⟨1, 0⟩, 6)], none⟩

/-- A grid whose only in-bounds cell is an unoccupied tile east of origin. -/
def fxMapNonNode : Grid := fun h =>
  if h = ⟨1, 0⟩ then some TileType.unoccupied else none

/-- A grid with no in-bounds cells at all. -/
def fxMapOob : Grid := fun _ => none

/-! ## C4 — wiring resolution (`port_by_name`) -/

/-- C4 (amended): `port_by_name` returns `none` exactly when no bound
direction carries a port with the requested name; when a binding exists,
an in-bounds `CyberNode` cell yields that node instance, while an
out-of-bounds cell (`Map::fetch_panic`) or a non-node cell
(`unreachable!()`) panics instead of returning `none`. -/
theorem port_by_name_resolution (name : String) (pos : Hex) (map : Grid)
    (cfg : PortCfg) (metas : Nat → PortMeta) :
    (port_by_name name pos map cfg metas = .ret none ↔
      cfg.inputs.find? (fun he => (metas he.2).name == name) = none)
  ∧ (∀ he, cfg.inputs.find? (fun he' => (metas he'.2).name == name) = some he →
      (map (pos.add he.1) = none →
        port_by_name name pos map cfg metas = .panicked)
    ∧ (∀ m e, map (pos.add he.1) = some (TileType.cyberNode m e) →
        port_by_name name pos map cfg metas = .ret (some e))
    ∧ (∀ t, map (pos.add he.1) = some t →
        (∀ m e, t ≠ TileType.cyberNode m e) →
        port_by_name name pos map cfg metas = .panicked)) := by
  constructor
  · unfold port_by_name
    constructor
    · intro h
      split at h
      · assumption
      · split at h <;> simp_all
    · intro h
      rw [h]
  · intro he hf
    refine ⟨fun hm => ?_, fun m e hm => ?_, fun t hm ht => ?_⟩
    · unfold port_by_name
      rw [hf]
      simp only [hm]
    · unfold port_by_name
      rw [hf]
      simp only [hm]
    · unfold port_by_name
      rw [hf]
      simp only [hm]

/-- Witness for C4: on a concrete wiring, an unbound name resolves to
`none`, a bound direction to a node cell resolves to the instance, and the
out-of-bounds case panics. -/
theorem port_by_name_resolution_witness :
    port_by_name "missing" ⟨0, 0⟩ fxMapNonNode fxCfgTarget fxMetas = .ret none
  ∧ port_by_name "target" ⟨0, 0⟩ fxMapOob fxCfgTarget fxMetas = .panicked := by
  constructor
  · exact (port_by_name_resolution "missing" ⟨0, 0⟩ fxMapNonNode fxCfgTarget
      fxMetas).1.mpr (by decide)
  · exact ((port_by_name_resolution "target" ⟨0, 0⟩ fxMapOob fxCfgTarget
      fxMetas).2 (⟨1, 0⟩, 6) (by decide)).1 rfl

/-- Counterexample for C4 as stated: with the `"target"` port bound to a
direction whose cell is in bounds but holds no node instance, resolution
panics (`unreachable!()`); it does not return `none`. -/
theorem port_by_name_nonnode_panics :
    port_by_name "target" ⟨0, 0⟩ fxMapNonNode fxCfgTarget fxMetas = .panicked
  ∧ (Panics.panicked : Panics (Option Nat)) ≠ .ret none := by
  refine ⟨rfl, by simp⟩

/-! ## C9 — state of a freshly purchased node -/

/-- C9 (amended): a purchase spawns the node with state `Disabled`; the
heartbeat's activation driver (`request_nodes`) leaves `Disabled` nodes
untouched, so the new instance only becomes activatable after the
reachability pass triggered by the tile change has promoted it to `Idle`,
which the driver then turns into `ActivationRequest`. -/
theorem tile_purchased_initial_state (item : Nat) (tile : Hex) :
    (tile_purchased item tile).state = CyberState.disabled
  ∧ (∀ (states : States) (e : Nat), states e = some CyberState.disabled →
      request_nodes states e = some CyberState.disabled)
  ∧ (∀ (states : States) (e : Nat), states e = some CyberState.idle →
      request_nodes states e = some CyberState.activationRequest) := by
  refine ⟨rfl, ?_, ?_⟩ <;> intro states e h <;> simp [request_nodes, h]

/-- Witness for C9 at concrete inputs. -/
theorem tile_purchased_initial_state_witness :
    (tile_purchased 3 ⟨1, 2⟩).state = CyberState.disabled
  ∧ request_nodes (fun _ => some CyberState.disabled) 0 = some CyberState.disabled
  ∧ request_nodes (fun _ => some CyberState.idle) 0 = some CyberState.activationRequest := by
  obtain ⟨h1, h2, h3⟩ := tile_purchased_initial_state 3 ⟨1, 2⟩
  exact ⟨h1, h2 _ 0 rfl, h3 _ 0 rfl⟩

/-- Counterexample for C9 as stated: immediately after the purchase the new
instance's state is `Disabled` — the very state the claim excludes — and a
heartbeat arriving at that point would skip it. -/
theorem tile_purchased_state_is_disabled :
    (tile_purchased 0 ⟨0, 0⟩).state = CyberState.disabled
  ∧ request_nodes (fun e => if e = 0 then some (tile_purchased 0 ⟨0, 0⟩).state else none) 0
      = some CyberState.disabled := by
  exact ⟨rfl, rfl⟩

/-! ## C6 — ClosestEntity (`closest_tick`) -/

/-- C6 (amended): `closest_tick` outputs the *first* targetable entity in
query iteration order whose cell is within distance 8 of the node — not
necessarily the nearest one — and errors exactly when no targetable entity
is within that range. -/
theorem closest_tick_first_in_range (pos : Hex) (targets : List (Nat × Hex)) :
    (closest_tick pos targets = .done .err ↔
      ∀ t ∈ targets, ¬ (t.2.distanceTo pos ≤ 8))
  ∧ (∀ t, targets.find? (fun t => t.2.distanceTo pos ≤ 8) = some t →
      closest_tick pos targets = .done (.ok (.entity t.1))
      ∧ t.2.distanceTo pos ≤ 8) := by
  constructor
  · unfold closest_tick
    cases hf : targets.find? (fun t => t.2.distanceTo pos ≤ 8) with
    | none =>
      simp only [List.find?_eq_none, decide_eq_true_eq] at hf
      simpa using hf
    | some t =>
      have hmem := List.mem_of_find?_eq_some hf
      have hp := List.find?_some hf
      simp only [decide_eq_true_eq] at hp
      constructor
      · intro h
        exact absurd h (by simp)
      · intro h
        exact absurd hp (h t hmem)
  · intro t hf
    have hp := List.find?_some hf
    simp only [decide_eq_true_eq] at hp
    refine ⟨?_, hp⟩
    unfold closest_tick
    rw [hf]

/-- Witness for C6: a concrete target list with one entity in range. -/
theorem closest_tick_first_in_range_witness :
    closest_tick ⟨0, 0⟩ [(7, ⟨2, 0⟩)] = .done (.ok (.entity 7))
  ∧ closest_tick ⟨0, 0⟩ [(7, ⟨20, 0⟩)] = .done .err := by
  constructor
  · exact ((closest_tick_first_in_range ⟨0, 0⟩ [(7, ⟨2, 0⟩)]).2 (7, ⟨2, 0⟩)
      (by decide)).1
  · exact (closest_tick_first_in_range ⟨0, 0⟩ [(7, ⟨20, 0⟩)]).1.mpr (by decide)

/-- Counterexample for C6 as stated: with two in-range targetable entities
at distances 5 and 1, the node outputs the first-iterated entity (distance
5), not the nearest one (distance 1). -/
theorem closest_tick_not_nearest :
    closest_tick ⟨0, 0⟩ [(1, ⟨5, 0⟩), (2, ⟨1, 0⟩)] = .done (.ok (.entity 1))
  ∧ Hex.distanceTo ⟨1, 0⟩ ⟨0, 0⟩ < Hex.distanceTo ⟨5, 0⟩ ⟨0, 0⟩
  ∧ Hex.distanceTo ⟨5, 0⟩ ⟨0, 0⟩ ≤ 8
  ∧ Hex.distanceTo ⟨1, 0⟩ ⟨0, 0⟩ ≤ 8 := by
  exact ⟨rfl, by decide, by decide, by decide⟩

/-! ## C3 — type mismatches in evaluators -/

/-- A grid with a single node cell (entity 31) east of origin. -/
def fxMapMis : Grid := fun h =>
  if h = ⟨1, 0⟩ then some (TileType.cyberNode 0 31) else none

/-- States giving node 31 a cached `Number` value (the wrong variant for an
`Entity`-typed port). -/
def fxStatesMis : States := fun e =>
  if e = 31 then some (.done (.ok (.number 1))) else none

/-- C3 (amended): a type mismatch on a *resolved* port is **not** treated
like an unconfigured port. `lazor_tick` skips the event, leaving the node's
own state unchanged and emitting no effect (while an unconfigured port
writes `Done(Err)`), and `vec_tick` likewise skips without writing; no
panic occurs in the mismatch case. -/
theorem type_mismatch_skips_event (pos : Hex) (cfg : PortCfg) (map : Grid)
    (metas : Nat → PortMeta) (states : States) (targetHp : Nat → Option ℚ)
    (target : Nat) (v : Val)
    (hres : port_by_name "target" pos map cfg metas = .ret (some target))
    (hst : states target = some (.done (.ok v)))
    (hv : ∀ e, v ≠ Val.entity e) :
    lazor_tick pos cfg map metas states targetHp = .ret ⟨none, []⟩
  ∧ (∀ (pos' : Hex) (cfg' : PortCfg) (map' : Grid) (metas' : Nat → PortMeta)
      (states' : States) (x : Val),
      fetch_port_data "x" pos' map' cfg' metas' states' = .ret (.ok x) →
      (∀ q, x ≠ Val.number q) →
      vec_tick pos' cfg' map' metas' states' = .ret none) := by
  constructor
  · unfold lazor_tick
    rw [hres]
    simp only [hst]
    cases v with
    | entity e => exact absurd rfl (hv e)
    | empty => rfl
    | vec a b => rfl
    | number n => rfl
    | text s => rfl
    | list l => rfl
  · intro pos' cfg' map' metas' states' x hx hxq
    unfold vec_tick
    rw [hx]
    cases x with
    | number n => exact absurd rfl (hxq n)
    | empty => rfl
    | entity e => rfl
    | vec a b => rfl
    | text s => rfl
    | list l => rfl

/-- Witness for C3 on the concrete mismatch world. -/
theorem type_mismatch_skips_event_witness :
    lazor_tick ⟨0, 0⟩ fxCfgTarget fxMapMis fxMetas fxStatesMis (fun _ => none)
      = .ret ⟨none, []⟩ := by
  exact (type_mismatch_skips_event ⟨0, 0⟩ fxCfgTarget fxMapMis fxMetas
    fxStatesMis (fun _ => none) 31 (Val.number 1) rfl rfl
    (fun e h => by cases h)).1

/-- Counterexample for C3 as stated: with Lazor's `"target"` port resolving
to a neighbor holding `Done(Ok(Number 1))`, the evaluator leaves the node's
state unwritten — which differs from the `Done(Err)` it writes for an
unconfigured port. -/
theorem lazor_type_mismatch_not_done_err :
    lazor_tick ⟨0, 0⟩ fxCfgTarget fxMapMis fxMetas fxStatesMis (fun _ => none)
      = .ret ⟨none, []⟩
  ∧ (Panics.ret (⟨none, []⟩ : EvalResult))
      ≠ .ret ⟨some (.done .err), []⟩ := by
  refine ⟨rfl, by simp⟩

/-! ## C7 / C10 — Plasma charging -/

/-- C7: with the `"target"` port resolving to a vector and `"threshold"`
resolving to `Number(3)`, three consecutive activations starting from a
fresh charge counter output `0`, `0`, then fire at charge `3`, and the
stored counter is reset to `0` by the firing activation. -/
theorem plasma_charges_then_fires (pos : Hex) (cfg : PortCfg) (map : Grid)
    (metas : Nat → PortMeta) (states : States) (vx vy : ℚ)
    (ht : fetch_port_data "target" pos map cfg metas states
      = .ret (.ok (.vec vx vy)))
    (hth : fetch_port_data "threshold" pos map cfg metas states
      = .ret (.ok (.number 3))) :
    plasma_tick pos cfg map metas states none = .ret (some ⟨1, 0, false⟩)
  ∧ plasma_tick pos cfg map metas states (some 1) = .ret (some ⟨2, 0, false⟩)
  ∧ plasma_tick pos cfg map metas states (some 2) = .ret (some ⟨0, 3, true⟩) := by
  refine ⟨?_, ?_, ?_⟩ <;>
    · unfold plasma_tick
      rw [ht, hth]
      norm_num

/-- Fixture wiring for Plasma: `"target"` east, `"threshold"` south-east. -/
def fxCfgPlasma : PortCfg := ⟨[(⟨1, 0⟩, 6), (⟨0, 1⟩, 7)], none⟩

/-- Grid for the Plasma fixtures: node 21 east, node 22 south-east. -/
def fxMapPlasma : Grid := fun h =>
  if h = ⟨1, 0⟩ then some (TileType.cyberNode 0 21)
  else if h = ⟨0, 1⟩ then some (TileType.cyberNode 0 22)
  else none

/-- Neighbor caches for the Plasma fixtures: a vector target and a numeric
threshold of 3. -/
def fxStatesPlasma : States := fun e =>
  if e = 21 then some (.done (.ok (.vec 2 2)))
  else if e = 22 then some (.done (.ok (.number 3)))
  else none

/-- Witness for C7 on the concrete Plasma world. -/
theorem plasma_charges_then_fires_witness :
    plasma_tick ⟨0, 0⟩ fxCfgPlasma fxMapPlasma fxMetas fxStatesPlasma none
      = .ret (some ⟨1, 0, false⟩)
  ∧ plasma_tick ⟨0, 0⟩ fxCfgPlasma fxMapPlasma fxMetas fxStatesPlasma (some 2)
      = .ret (some ⟨0, 3, true⟩) := by
  obtain ⟨h1, _, h3⟩ := plasma_charges_then_fires ⟨0, 0⟩ fxCfgPlasma fxMapPlasma
    fxMetas fxStatesPlasma 2 2 rfl rfl
  exact ⟨h1, h3⟩

/-- C10: when the `"threshold"` fetch returns anything other than
`Ok(Number _)` (unbound port, failed upstream, or wrong variant), the
threshold defaults to `0`; since the counter is incremented before the
comparison, the node fires on every activation with a valid target,
outputs the accumulated charge (at least 1, never `0`), and resets the
stored counter. -/
theorem plasma_default_threshold_fires (pos : Hex) (cfg : PortCfg) (map : Grid)
    (metas : Nat → PortMeta) (states : States) (prev : Option Nat) (vx vy : ℚ)
    (r : CRes)
    (ht : fetch_port_data "target" pos map cfg metas states
      = .ret (.ok (.vec vx vy)))
    (hth : fetch_port_data "threshold" pos map cfg metas states = .ret r)
    (hr : ∀ t, r ≠ CRes.ok (Val.number t)) :
    plasma_tick pos cfg map metas states prev
      = .ret (some ⟨0, prev.getD 0 + 1, true⟩)
  ∧ 1 ≤ prev.getD 0 + 1 := by
  have hthr : (match r with
      | CRes.ok (Val.number t) => t
      | _ => (0 : ℚ)) = 0 := by
    cases r with
    | err => rfl
    | ok v =>
      cases v with
      | number n => exact absurd rfl (hr n)
      | empty => rfl
      | entity e => rfl
      | vec a b => rfl
      | text s => rfl
      | list l => rfl
  constructor
  · unfold plasma_tick
    rw [ht, hth]
    simp only [hthr, ge_iff_le]
    rw [if_pos (by positivity)]
  · omega

/-- Fixture wiring for Plasma with only `"target"` bound. -/
def fxCfgPlasmaNoThr : PortCfg := ⟨[(⟨1, 0⟩, 6)], none⟩

/-- Witness for C10: with the threshold port unbound, an activation from a
fresh counter fires immediately and outputs `1`. -/
theorem plasma_default_threshold_fires_witness :
    plasma_tick ⟨0, 0⟩ fxCfgPlasmaNoThr fxMapPlasma fxMetas fxStatesPlasma none
      = .ret (some ⟨0, 1, true⟩)
  ∧ 1 ≤ (none : Option Nat).getD 0 + 1 := by
  exact plasma_default_threshold_fires ⟨0, 0⟩ fxCfgPlasmaNoThr fxMapPlasma
    fxMetas fxStatesPlasma none 2 2 CRes.err rfl rfl (fun t h => by cases h)

/-! ## C8 — NumberSubtract -/

/-- Grid for the subtraction fixtures: nodes 11, 12, 13 on the three
wired neighbor cells. -/
def fxMapSub : Grid := fun h =>
  if h = ⟨1, 0⟩ then some (TileType.cyberNode 0 11)
  else if h = ⟨0, 1⟩ then some (TileType.cyberNode 0 12)
  else if h = ⟨-1, 1⟩ then some (TileType.cyberNode 0 13)
  else none

/-- Neighbor caches `a = 10`, `b = 3`, `c = 2`. -/
def fxStatesSub : States := fun e =>
  if e = 11 then some (.done (.ok (.number 10)))
  else if e = 12 then some (.done (.ok (.number 3)))
  else if e = 13 then some (.done (.ok (.number 2)))
  else none

/-- Wiring binding slots `a`, `b`, `c` in port order. -/
def fxCfgSub3 : PortCfg := ⟨[(⟨1, 0⟩, 1), (⟨0, 1⟩, 2), (⟨-1, 1⟩, 3)], none⟩

/-- Wiring binding only slot `a`. -/
def fxCfgSub1 : PortCfg := ⟨[(⟨1, 0⟩, 1)], none⟩

/-- C8: `numsub_tick` left-folds subtraction over exactly the slots that
fetched `Done(Ok(Number _))`, in port order, skipping any slot whose fetch
failed or produced a different variant: `a=10, b=3, c=2` yields `5`; only
`a=10` yields `10`; and a non-number slot result is simply dropped from the
fold. -/
theorem numsub_fold_over_present (r : CRes) (rs : List CRes)
    (h : ∀ q, r ≠ CRes.ok (Val.number q)) :
    numsub_tick ⟨0, 0⟩ fxCfgSub3 fxMapSub fxMetas fxStatesSub
      = .ret (.done (.ok (.number 5)))
  ∧ numsub_tick ⟨0, 0⟩ fxCfgSub1 fxMapSub fxMetas fxStatesSub
      = .ret (.done (.ok (.number 10)))
  ∧ resultNumbers (r :: rs) = resultNumbers rs := by
  refine ⟨?_, ?_, ?_⟩
  · have hf : fetchPorts slotNames ⟨0, 0⟩ fxMapSub fxCfgSub3 fxMetas fxStatesSub
        = .ret [.ok (.number 10), .ok (.number 3), .ok (.number 2), .err, .err] := rfl
    have hn : resultNumbers
        [.ok (.number 10), .ok (.number 3), .ok (.number 2), .err, .err]
        = [10, 3, 2] := rfl
    unfold numsub_tick
    rw [hf]
    simp only [hn, Panics.ret.injEq, CyberState.done.injEq, CRes.ok.injEq,
      Val.number.injEq]
    norm_num [reduceSub]
  · have hf : fetchPorts slotNames ⟨0, 0⟩ fxMapSub fxCfgSub1 fxMetas fxStatesSub
        = .ret [.ok (.number 10), .err, .err, .err, .err] := rfl
    have hn : resultNumbers [.ok (.number 10), .err, .err, .err, .err]
        = [10] := rfl
    unfold numsub_tick
    rw [hf]
    simp only [hn, Panics.ret.injEq, CyberState.done.injEq, CRes.ok.injEq,
      Val.number.injEq]
    norm_num [reduceSub]
  · unfold resultNumbers
    cases r with
    | err => rfl
    | ok v =>
      cases v with
      | number n => exact absurd rfl (h n)
      | empty => rfl
      | entity e => rfl
      | vec a b => rfl
      | text s => rfl
      | list l => rfl

/-- Witness for C8 at a concrete skipped slot. -/
theorem numsub_fold_over_present_witness :
    numsub_tick ⟨0, 0⟩ fxCfgSub3 fxMapSub fxMetas fxStatesSub
      = .ret (.done (.ok (.number 5)))
  ∧ resultNumbers [CRes.err] = resultNumbers [] := by
  obtain ⟨h1, _, h3⟩ := numsub_fold_over_present CRes.err []
    (fun q h => by cases h)
  exact ⟨h1, h3⟩

/-! ## C1 — the activation scheduler pass (`tick_nodes`) -/

/-- Relation between the states before and after (a prefix of) a scheduler
pass: the pass only ever promotes `ActivationRequest` entries to
`Triggered`. -/
def PassStep (s s' : States) : Prop :=
  ∀ e, s' e = s e ∨
    (s e = some CyberState.activationRequest ∧ s' e = some CyberState.triggered)

theorem passStep_refl (s : States) : PassStep s s := fun _ => Or.inl rfl

theorem passStep_set (s : States) (e0 : Nat)
    (h : s e0 = some CyberState.activationRequest) :
    PassStep s (setState s e0 .triggered) := by
  intro e
  by_cases he : e = e0
  · subst he
    exact Or.inr ⟨h, by simp [setState]⟩
  · exact Or.inl (by simp [setState, he])

theorem passStep_trans {s s' s'' : States}
    (h1 : PassStep s s') (h2 : PassStep s' s'') : PassStep s s'' := by
  intro e
  rcases h2 e with h | ⟨ha, hb⟩
  · rw [h]
    exact h1 e
  · rcases h1 e with h' | ⟨_, hb'⟩
    · exact Or.inr ⟨h' ▸ ha, hb⟩
    · rw [hb'] at ha
      cases ha

/-- Readiness of a single direction is insensitive to the promotions a pass
makes: neither `ActivationRequest` nor `Triggered` is `Done(Ok(_))`. -/
theorem inputSatisfied_congr {s s' : States} (map : Grid) (pos dir : Hex)
    (h : PassStep s s') :
    inputSatisfied map s' pos dir = inputSatisfied map s pos dir := by
  unfold inputSatisfied
  cases hm : map (pos.add dir) with
  | none => rfl
  | some t =>
    cases t with
    | cyberNode m e =>
      rcases h e with heq | ⟨h1, h2⟩
      · simp only [heq]
      · simp only [h1, h2]
    | unoccupied => rfl
    | terrain e => rfl
    | heart e => rfl

/-- Whole-wiring readiness is likewise stable across the pass. -/
theorem nodeSatisfied_congr {s s' : States} (map : Grid) (n : Node)
    (h : PassStep s s') :
    nodeSatisfied map s' n = nodeSatisfied map s n := by
  unfold nodeSatisfied
  have : (fun he : Hex × Nat => inputSatisfied map s' n.pos he.1)
      = fun he : Hex × Nat => inputSatisfied map s n.pos he.1 := by
    funext he
    exact inputSatisfied_congr map n.pos he.1 h
  rw [this]

/-- Unfolding equation: a head node not in `ActivationRequest` is skipped. -/
theorem tickNodesPass_cons_notAR (map : Grid) (m : Node) (ns : List Node)
    (states : States) (h : states m.e ≠ some CyberState.activationRequest) :
    tickNodesPass map (m :: ns) states = tickNodesPass map ns states := by
  conv_lhs => unfold tickNodesPass
  cases hm : states m.e with
  | none => rfl
  | some s =>
    cases s with
    | activationRequest => exact absurd hm h
    | idle => rfl
    | triggered => rfl
    | done r => rfl
    | disabled => rfl

/-- Unfolding equation: a satisfied head node is promoted and dispatched. -/
theorem tickNodesPass_cons_sat (map : Grid) (m : Node) (ns : List Node)
    (states : States) (h : states m.e = some CyberState.activationRequest)
    (hs : nodeSatisfied map states m = true) :
    tickNodesPass map (m :: ns) states
      = ((tickNodesPass map ns (setState states m.e .triggered)).1,
         dispatchEvts m.kind m.e
           ++ (tickNodesPass map ns (setState states m.e .triggered)).2) := by
  conv_lhs => unfold tickNodesPass
  rw [h]
  simp [hs]

/-- Unfolding equation: an unsatisfied head node is left pending. -/
theorem tickNodesPass_cons_unsat (map : Grid) (m : Node) (ns : List Node)
    (states : States) (h : states m.e = some CyberState.activationRequest)
    (hs : nodeSatisfied map states m = false) :
    tickNodesPass map (m :: ns) states = tickNodesPass map ns states := by
  conv_lhs => unfold tickNodesPass
  rw [h]
  simp [hs]

/-- The pass never writes the state of an entity none of the iterated nodes
carries. -/
theorem tickNodesPass_untouched (map : Grid) :
    ∀ (nodes : List Node) (states : States) (e : Nat),
    (∀ m ∈ nodes, m.e ≠ e) →
    (tickNodesPass map nodes states).1 e = states e := by
  intro nodes
  induction nodes with
  | nil => intro states e _; rfl
  | cons m ns ih =>
    intro states e hne
    have hme : m.e ≠ e := hne m (List.mem_cons_self m ns)
    have hns : ∀ m' ∈ ns, m'.e ≠ e :=
      fun m' hm' => hne m' (List.mem_cons_of_mem m hm')
    by_cases hAR : states m.e = some CyberState.activationRequest
    · cases hs : nodeSatisfied map states m with
      | true =>
        rw [tickNodesPass_cons_sat map m ns states hAR hs]
        show (tickNodesPass map ns (setState states m.e .triggered)).1 e
          = states e
        rw [ih (setState states m.e .triggered) e hns]
        unfold setState
        rw [if_neg (Ne.symm hme)]
      | false =>
        rw [tickNodesPass_cons_unsat map m ns states hAR hs]
        exact ih states e hns
    · rw [tickNodesPass_cons_notAR map m ns states hAR]
      exact ih states e hns

/-- The whole pass is a `PassStep`. -/
theorem tickNodesPass_passStep (map : Grid) :
    ∀ (nodes : List Node) (states : States),
    PassStep states (tickNodesPass map nodes states).1 := by
  intro nodes
  induction nodes with
  | nil => intro states; exact passStep_refl states
  | cons m ns ih =>
    intro states
    by_cases hAR : states m.e = some CyberState.activationRequest
    · cases hs : nodeSatisfied map states m with
      | true =>
        rw [tickNodesPass_cons_sat map m ns states hAR hs]
        exact passStep_trans (passStep_set states m.e hAR)
          (ih (setState states m.e .triggered))
      | false =>
        rw [tickNodesPass_cons_unsat map m ns states hAR hs]
        exact ih states
    · rw [tickNodesPass_cons_notAR map m ns states hAR]
      exact ih states

/-- Membership in a dispatch list pins down both components. -/
theorem dispatchEvts_mem {k k' : CyberNodes} {e e' : Nat}
    (h : (k', e') ∈ dispatchEvts k e) : e' = e ∧ k' = k := by
  unfold dispatchEvts at h
  cases k <;> simp_all

/-- Every queued event comes from an iterated node that was in
`ActivationRequest` and satisfied with respect to the pass's initial
states. -/
theorem tickNodesPass_evts_from (map : Grid) :
    ∀ (nodes : List Node) (states : States) (k : CyberNodes) (e' : Nat),
    (k, e') ∈ (tickNodesPass map nodes states).2 →
    ∃ m ∈ nodes, m.e = e' ∧ m.kind = k
      ∧ states m.e = some CyberState.activationRequest
      ∧ nodeSatisfied map states m = true := by
  intro nodes
  induction nodes with
  | nil => intro states k e' h; cases h
  | cons m ns ih =>
    intro states k e' hmem
    by_cases hAR : states m.e = some CyberState.activationRequest
    · cases hs : nodeSatisfied map states m with
      | true =>
        rw [tickNodesPass_cons_sat map m ns states hAR hs] at hmem
        rcases List.mem_append.mp hmem with hd | hr
        · obtain ⟨he, hk⟩ := dispatchEvts_mem hd
          exact ⟨m, List.mem_cons_self m ns, he.symm, hk.symm, hAR, hs⟩
        · obtain ⟨m', hm', he', hk', hAR', hs'⟩ :=
            ih (setState states m.e .triggered) k e' hr
          refine ⟨m', List.mem_cons_of_mem m hm', he', hk', ?_, ?_⟩
          · by_cases hme : m'.e = m.e
            · rw [hme] at hAR'
              simp [setState] at hAR'
            · simpa [setState, hme] using hAR'
          · rwa [nodeSatisfied_congr map m' (passStep_set states m.e hAR)] at hs'
      | false =>
        rw [tickNodesPass_cons_unsat map m ns states hAR hs] at hmem
        obtain ⟨m', hm', rest⟩ := ih states k e' hmem
        exact ⟨m', List.mem_cons_of_mem m hm', rest⟩
    · rw [tickNodesPass_cons_notAR map m ns states hAR] at hmem
      obtain ⟨m', hm', rest⟩ := ih states k e' hmem
      exact ⟨m', List.mem_cons_of_mem m hm', rest⟩

/-- C1: for a node in `ActivationRequest` (with node entity ids unique, as
in the ECS), the scheduler pass moves it to `Triggered` iff every direction
bound in its wiring points at an in-bounds cell holding a node instance in
`Done(Ok(_))` (`nodeSatisfied`); a satisfied node has its kind-specific
dispatch events queued, an event carrying the node's id is queued only if
it was satisfied, an unsatisfied node remains in `ActivationRequest`, and a
node with no bound inputs is vacuously satisfied (hence dispatched on this
very pass). -/
theorem tick_nodes_dispatch_iff (map : Grid) (nodes : List Node)
    (states : States) (n : Node) (hmem : n ∈ nodes)
    (hnd : (nodes.map Node.e).Nodup)
    (hAR : states n.e = some CyberState.activationRequest) :
    ((tickNodesPass map nodes states).1 n.e = some CyberState.triggered
      ↔ nodeSatisfied map states n = true)
  ∧ (nodeSatisfied map states n = false →
      (tickNodesPass map nodes states).1 n.e
        = some CyberState.activationRequest)
  ∧ (nodeSatisfied map states n = true →
      ∀ ev ∈ dispatchEvts n.kind n.e, ev ∈ (tickNodesPass map nodes states).2)
  ∧ (∀ k, (k, n.e) ∈ (tickNodesPass map nodes states).2 →
      nodeSatisfied map states n = true)
  ∧ (n.cfg.inputs = [] → nodeSatisfied map states n = true) := by
  induction nodes generalizing states with
  | nil => cases hmem
  | cons m ns ih =>
    have hndtail : (ns.map Node.e).Nodup := (List.nodup_cons.mp hnd).2
    have hmnotin : m.e ∉ ns.map Node.e := (List.nodup_cons.mp hnd).1
    rcases List.mem_cons.mp hmem with heq | htail
    · -- the target node is the head of the iteration
      subst heq
      cases hs : nodeSatisfied map states n with
      | true =>
        rw [tickNodesPass_cons_sat map n ns states hAR hs]
        have huntouched : (tickNodesPass map ns (setState states n.e .triggered)).1 n.e
            = some CyberState.triggered := by
          rw [tickNodesPass_untouched map ns _ n.e
            (fun m' hm' h => hmnotin (h ▸ List.mem_map_of_mem Node.e hm'))]
          simp [setState]
        refine ⟨by simp [huntouched], by simp, ?_, fun _ _ => rfl,
          fun _ => rfl⟩
        intro _ ev hev
        exact List.mem_append_left _ hev
      | false =>
        rw [tickNodesPass_cons_unsat map n ns states hAR hs]
        have huntouched : (tickNodesPass map ns states).1 n.e = states n.e :=
          tickNodesPass_untouched map ns states n.e
            (fun m' hm' h => hmnotin (h ▸ List.mem_map_of_mem Node.e hm'))
        refine ⟨?_, fun _ => huntouched.trans hAR, by simp, ?_, ?_⟩
        · rw [huntouched, hAR]
          simp
        · intro k hk
          obtain ⟨m', hm', he', _, _, _⟩ :=
            tickNodesPass_evts_from map ns states k n.e hk
          exact absurd (he' ▸ List.mem_map_of_mem Node.e hm') hmnotin
        · intro hempty
          unfold nodeSatisfied at hs
          rw [hempty] at hs
          simp at hs
    · -- the target node sits in the tail
      have hne : m.e ≠ n.e := by
        intro h
        exact hmnotin (h ▸ List.mem_map_of_mem Node.e htail)
      by_cases hARm : states m.e = some CyberState.activationRequest
      · cases hsm : nodeSatisfied map states m with
        | true =>
          rw [tickNodesPass_cons_sat map m ns states hARm hsm]
          have hstep : PassStep states (setState states m.e .triggered) :=
            passStep_set states m.e hARm
          have hAR' : setState states m.e .triggered n.e
              = some CyberState.activationRequest := by
            unfold setState
            rw [if_neg (Ne.symm hne)]
            exact hAR
          have hcong := nodeSatisfied_congr map n hstep
          obtain ⟨c1, c2, c3, c4, c5⟩ := ih _ htail hndtail hAR'
          rw [hcong] at c1 c2 c3 c4 c5
          refine ⟨by simpa using c1, fun h => by simpa using c2 h, ?_, ?_, c5⟩
          · intro h ev hev
            exact List.mem_append_right _ (c3 h ev hev)
          · intro k hk
            rcases List.mem_append.mp hk with hd | hr
            · exact absurd (dispatchEvts_mem hd).1.symm hne
            · exact c4 k hr
        | false =>
          rw [tickNodesPass_cons_unsat map m ns states hARm hsm]
          exact ih _ htail hndtail hAR
      · rw [tickNodesPass_cons_notAR map m ns states hARm]
        exact ih _ htail hndtail hAR

/-! Fixture two-node chain: node 1 (`ConstantNumber`, no inputs) at the
origin, node 2 (`Debug`) east of it with slot `"a"` wired back to node 1. -/

/-- Chain fixture: the upstream constant node. -/
def fxNodeA : Node := ⟨1, ⟨[], some (Val.number 7)⟩, .constantNumber, ⟨0, 0⟩⟩

/-- Chain fixture: the downstream debug node wired to `fxNodeA`. -/
def fxNodeB : Node := ⟨2, ⟨[(⟨-1, 0⟩, 1)], none⟩, .debug, ⟨1, 0⟩⟩

/-- Chain fixture grid. -/
def fxMapChain : Grid := fun h =>
  if h = ⟨0, 0⟩ then some (TileType.cyberNode 0 1)
  else if h = ⟨1, 0⟩ then some (TileType.cyberNode 0 2)
  else none

/-- Chain fixture states: both nodes freshly requested by a heartbeat. -/
def fxStatesAR : States := fun e =>
  if e = 1 then some .activationRequest
  else if e = 2 then some .activationRequest
  else none

/-- Witness for C1 on the chain fixture: the input-free node is promoted on
the pass while the node whose wired input is not yet `Done` stays in
`ActivationRequest`. -/
theorem tick_nodes_dispatch_iff_witness :
    (tickNodesPass fxMapChain [fxNodeA, fxNodeB] fxStatesAR).1 1
      = some CyberState.triggered
  ∧ (tickNodesPass fxMapChain [fxNodeA, fxNodeB] fxStatesAR).1 2
      = some CyberState.activationRequest := by
  have hA := tick_nodes_dispatch_iff fxMapChain [fxNodeA, fxNodeB] fxStatesAR
    fxNodeA (List.mem_cons_self _ _) (by decide) rfl
  have hB := tick_nodes_dispatch_iff fxMapChain [fxNodeA, fxNodeB] fxStatesAR
    fxNodeB (List.mem_cons_of_mem _ (List.mem_cons_self _ _)) (by decide) rfl
  exact ⟨hA.1.mpr rfl, hB.2.1 rfl⟩

/-! ## C5 — wavefront: no same-frame chaining -/

/-- An evaluator invocation writes no node state other than its own
(`states.get_mut(e.e)`): every cross-node influence is only visible to the
next frame's readiness check. -/
theorem runEvt_other (ctx : EvalCtx) (nodes : List Node) (w : WState)
    (k : CyberNodes) (te : Nat) (w' : WState)
    (h : runEvt ctx nodes w (k, te) = .ret w') :
    ∀ x, x ≠ te → w'.states x = w.states x := by
  intro x hx
  unfold runEvt at h
  cases hf : nodes.find? (fun n => n.e == (k, te).2) with
  | none =>
    rw [hf] at h
    cases k <;> (try simp only at h) <;>
      first
        | (injection h with h; subst h; simp [setState, hx])
        | exact Panics.noConfusion h
  | some n =>
    rw [hf] at h
    cases k <;> (try simp only at h) <;> (repeat' split at h) <;>
      first
        | (injection h with h; subst h; simp [setState, hx])
        | exact Panics.noConfusion h

/-- Processing a batch of events leaves untouched every node none of the
events addresses. -/
theorem evalPhase_untouched (ctx : EvalCtx) (nodes : List Node) :
    ∀ (evts : List (CyberNodes × Nat)) (w w' : WState) (x : Nat),
    evalPhase ctx nodes evts w = .ret w' →
    (∀ ev ∈ evts, ev.2 ≠ x) →
    w'.states x = w.states x := by
  intro evts
  induction evts with
  | nil =>
    intro w w' x h _
    injection h with h
    subst h
    rfl
  | cons ev evs ih =>
    intro w w' x h hne
    obtain ⟨k, te⟩ := ev
    unfold evalPhase at h
    cases hr : runEvt ctx nodes w (k, te) with
    | panicked => rw [hr] at h; cases h
    | ret w1 =>
      rw [hr] at h
      have htail : w'.states x = w1.states x :=
        ih w1 w' x h (fun e he => hne e (List.mem_cons_of_mem _ he))
      have hhead : w1.states x = w.states x :=
        runEvt_other ctx nodes w k te w1 hr x
          (fun hxx => hne (k, te) (List.mem_cons_self _ _) hxx.symm)
      exact htail.trans hhead

/-- An unsatisfied node in `ActivationRequest` is left there by the
scheduler pass (standalone induction over the iteration, using readiness
stability across mid-pass promotions). -/
theorem tickNodesPass_unsat_stays (map : Grid) :
    ∀ (nodes : List Node) (states : States) (B : Node),
    B ∈ nodes → (nodes.map Node.e).Nodup →
    states B.e = some CyberState.activationRequest →
    nodeSatisfied map states B = false →
    (tickNodesPass map nodes states).1 B.e
      = some CyberState.activationRequest := by
  intro nodes
  induction nodes with
  | nil => intro states B h; cases h
  | cons m ns ih =>
    intro states B hmem hnd hBAR hunsat
    have hndtail : (ns.map Node.e).Nodup := (List.nodup_cons.mp hnd).2
    have hmnotin : m.e ∉ ns.map Node.e := (List.nodup_cons.mp hnd).1
    rcases List.mem_cons.mp hmem with rfl | htail
    · rw [tickNodesPass_cons_unsat map B ns states hBAR hunsat]
      exact (tickNodesPass_untouched map ns states B.e
        (fun m' hm' h => hmnotin (h ▸ List.mem_map_of_mem Node.e hm'))).trans
        hBAR
    · have hne : m.e ≠ B.e := fun h =>
        hmnotin (h ▸ List.mem_map_of_mem Node.e htail)
      by_cases hARm : states m.e = some CyberState.activationRequest
      · cases hsm : nodeSatisfied map states m with
        | true =>
          rw [tickNodesPass_cons_sat map m ns states hARm hsm]
          have hBAR' : setState states m.e .triggered B.e
              = some CyberState.activationRequest := by
            unfold setState
            rw [if_neg (Ne.symm hne)]
            exact hBAR
          have hunsat' : nodeSatisfied map (setState states m.e .triggered) B
              = false := by
            rw [nodeSatisfied_congr map B (passStep_set states m.e hARm)]
            exact hunsat
          exact ih _ B htail hndtail hBAR' hunsat'
        | false =>
          rw [tickNodesPass_cons_unsat map m ns states hARm hsm]
          exact ih states B htail hndtail hBAR hunsat
      · rw [tickNodesPass_cons_notAR map m ns states hARm]
        exact ih states B htail hndtail hBAR hunsat

/-- No event queued by the pass carries the id of an unsatisfied node. -/
theorem tickNodesPass_unsat_no_evt (map : Grid) (nodes : List Node)
    (states : States) (B : Node)
    (hmem : B ∈ nodes) (hnd : (nodes.map Node.e).Nodup)
    (hunsat : nodeSatisfied map states B = false) :
    ∀ ev ∈ (tickNodesPass map nodes states).2, ev.2 ≠ B.e := by
  rintro ⟨k, e2⟩ hev he2
  simp only at he2
  subst he2
  obtain ⟨m', hm', he', -, -, hs'⟩ :=
    tickNodesPass_evts_from map nodes states k B.e hev
  have hmB : m' = B := List.inj_on_of_nodup_map hnd hm' hmem he'
  subst hmB
  rw [hunsat] at hs'
  cases hs'

/-- C5 (amended): consider a node `B` whose wiring binds some direction to
a cell holding node `A`. In every legal interleaving of a frame — any
split of the frame's deliverable events around the scheduler pass, none of
them addressed to `B` — if `A`'s cached state is still not `Done(Ok(_))`
at the moment the pass reads states (that is, after the evaluator systems
that happened to run before it), then `B` is not dispatched and ends the
frame in `ActivationRequest`. Hence `B` transitions to `Triggered` only in
a pass that already sees `A`'s `Done` — in particular never in the pass
that dispatched `A`, and, events being delivered a frame late, no earlier
than the frame in which `A`'s evaluator runs. (Because the `FixedUpdate`
systems are unordered, that frame may also contain `A`'s `Done` write
itself; see the counterexample.) -/
theorem wavefront_requires_prior_done (ctx : EvalCtx) (nodes : List Node)
    (pre post : List (CyberNodes × Nat)) (w w1 : WState)
    (out : WState × List (CyberNodes × Nat))
    (B : Node) (dir : Hex) (pm m aId : Nat)
    (hmem : B ∈ nodes) (hnd : (nodes.map Node.e).Nodup)
    (hwire : (dir, pm) ∈ B.cfg.inputs)
    (hcell : ctx.map (B.pos.add dir) = some (TileType.cyberNode m aId))
    (hBAR : w.states B.e = some CyberState.activationRequest)
    (hpend : ∀ ev ∈ pre ++ post, ev.2 ≠ B.e)
    (hpre : evalPhase ctx nodes pre w = .ret w1)
    (hAnotDone : ∀ v, w1.states aId ≠ some (CyberState.done (CRes.ok v)))
    (hrun : frameInterleaved ctx nodes pre post w = .ret out) :
    out.1.states B.e = some CyberState.activationRequest := by
  have hpendpre : ∀ ev ∈ pre, ev.2 ≠ B.e :=
    fun ev h => hpend ev (List.mem_append_left _ h)
  have hpendpost : ∀ ev ∈ post, ev.2 ≠ B.e :=
    fun ev h => hpend ev (List.mem_append_right _ h)
  have hBAR1 : w1.states B.e = some CyberState.activationRequest := by
    rw [evalPhase_untouched ctx nodes pre w w1 B.e hpre hpendpre]
    exact hBAR
  have hinput : inputSatisfied ctx.map w1.states B.pos dir = false := by
    unfold inputSatisfied
    rw [hcell]
    cases hsA : w1.states aId with
    | none => simp only [hsA]
    | some s =>
      cases s with
      | done r =>
        cases r with
        | ok v => exact absurd hsA (hAnotDone v)
        | err => simp only [hsA]
      | idle => simp only [hsA]
      | activationRequest => simp only [hsA]
      | triggered => simp only [hsA]
      | disabled => simp only [hsA]
  have hunsat : nodeSatisfied ctx.map w1.states B = false := by
    cases hall : nodeSatisfied ctx.map w1.states B with
    | false => rfl
    | true =>
      unfold nodeSatisfied at hall
      rw [List.all_eq_true] at hall
      have h2 := hall ⟨dir, pm⟩ hwire
      simp only at h2
      rw [hinput] at h2
      cases h2
  have hAR1 : (tickNodesPass ctx.map nodes w1.states).1 B.e
      = some CyberState.activationRequest :=
    tickNodesPass_unsat_stays ctx.map nodes w1.states B hmem hnd hBAR1 hunsat
  unfold frameInterleaved at hrun
  rw [hpre] at hrun
  cases hpost : evalPhase ctx nodes post
      { w1 with states := (tickNodesPass ctx.map nodes w1.states).1 } with
  | panicked =>
    simp only [hpost] at hrun
    exact Panics.noConfusion hrun
  | ret w2 =>
    simp only [hpost] at hrun
    injection hrun with hrun
    subst hrun
    have huntouched := evalPhase_untouched ctx nodes post
      { w1 with states := (tickNodesPass ctx.map nodes w1.states).1 } w2 B.e
      hpost hpendpost
    exact huntouched.trans hAR1

/-- Frame context for the chain fixture: no targetable entities. -/
def fxCtx : EvalCtx := ⟨fxMapChain, fxMetas, [], fun _ => none⟩

/-- Frame state for the chain fixture at the start of the heartbeat epoch. -/
def fxW0 : WState := ⟨fxStatesAR, fun _ => none⟩

/-- Witness for C5 on the chain fixture: with no deliverable events yet and
node 1 not `Done`, the frame leaves node 2 in `ActivationRequest`. -/
theorem wavefront_requires_prior_done_witness :
    (match frameInterleaved fxCtx [fxNodeA, fxNodeB] [] [] fxW0 with
     | .ret out => out.1.states 2 = some CyberState.activationRequest
     | .panicked => False) := by
  obtain ⟨out, hout⟩ : ∃ out,
      frameInterleaved fxCtx [fxNodeA, fxNodeB] [] [] fxW0 = .ret out :=
    ⟨_, rfl⟩
  rw [hout]
  exact wavefront_requires_prior_done fxCtx [fxNodeA, fxNodeB] [] [] fxW0 fxW0
    out fxNodeB ⟨-1, 0⟩ 1 0 1
    (List.mem_cons_of_mem _ (List.mem_cons_self _ _)) (by decide) (by decide)
    (by decide) rfl
    (fun ev h => absurd h (List.not_mem_nil ev))
    rfl
    (fun v h => by simp [fxW0, fxStatesAR] at h)
    hout

/-- Mid-epoch chain state: node 1 was dispatched by the previous frame's
pass (it is `Triggered`, its tick event pending delivery), node 2 still
awaits activation. -/
def fxWmid : WState :=
  ⟨fun e =>
    if e = 1 then some .triggered
    else if e = 2 then some .activationRequest
    else none, fun _ => none⟩

/-- Counterexample for C5 as stated: delivering node 1's pending tick event
to its evaluator *before* the same frame's scheduler pass — a legal order
of the unordered `FixedUpdate` systems — makes node 1 transition to `Done`
and node 2 transition to `Triggered` within one and the same engine
frame. -/
theorem wavefront_same_frame_possible :
    fxWmid.states 1 = some CyberState.triggered
  ∧ fxWmid.states 2 = some CyberState.activationRequest
  ∧ (match frameInterleaved fxCtx [fxNodeA, fxNodeB]
        [(CyberNodes.constantNumber, 1)] [] fxWmid with
     | .ret out =>
        out.1.states 1 = some (.done (.ok (.number 7)))
        ∧ out.1.states 2 = some CyberState.triggered
     | .panicked => False) := by
  refine ⟨rfl, rfl, ?_⟩
  exact ⟨rfl, rfl⟩

/-! ## C2 — reachability pruning (`disable_disconnected`) -/

/-- Idling twice is idling once. -/
theorem map_idle_idem (o : Option CyberState) :
    (o.map (fun _ => CyberState.idle)).map (fun _ => CyberState.idle)
      = o.map (fun _ => CyberState.idle) := by
  cases o <;> rfl

/-- Unfolding equation: a non-node neighbor is skipped. -/
theorem visitNeighbors_cons_none (map : Grid) (visited : List Hex)
    (nb : Hex) (rest : List Hex) (states : States)
    (h : isNodeTile map nb = none) :
    visitNeighbors map visited (nb :: rest) states
      = visitNeighbors map visited rest states := by
  conv_lhs => unfold visitNeighbors
  rw [h]

/-- Unfolding equation: an already-visited neighbor is skipped. -/
theorem visitNeighbors_cons_visited (map : Grid) (visited : List Hex)
    (nb : Hex) (rest : List Hex) (states : States) (e' : Nat)
    (h : isNodeTile map nb = some e') (hv : nb ∈ visited) :
    visitNeighbors map visited (nb :: rest) states
      = visitNeighbors map visited rest states := by
  conv_lhs => unfold visitNeighbors
  rw [h]
  simp only []
  rw [if_pos hv]

/-- Unfolding equation: an unvisited node neighbor is idled and pushed. -/
theorem visitNeighbors_cons_new (map : Grid) (visited : List Hex)
    (nb : Hex) (rest : List Hex) (states : States) (e' : Nat)
    (h : isNodeTile map nb = some e') (hv : nb ∉ visited) :
    visitNeighbors map visited (nb :: rest) states
      = ((visitNeighbors map visited rest (fun x =>
            if x = e' then (states x).map (fun _ => CyberState.idle)
            else states x)).1,
         (visitNeighbors map visited rest (fun x =>
            if x = e' then (states x).map (fun _ => CyberState.idle)
            else states x)).2 ++ [nb]) := by
  conv_lhs => unfold visitNeighbors
  rw [h]
  simp only []
  rw [if_neg hv]

/-- The neighbor loop either leaves an entity's state alone or idles it,
and it only idles entities occupying an unvisited node cell among the
scanned neighbors. -/
theorem visitNeighbors_states (map : Grid) (visited : List Hex) :
    ∀ (nbs : List Hex) (states : States) (e : Nat),
    (visitNeighbors map visited nbs states).1 e = states e
    ∨ ((visitNeighbors map visited nbs states).1 e
          = (states e).map (fun _ => CyberState.idle)
        ∧ ∃ nb ∈ nbs, isNodeTile map nb = some e ∧ nb ∉ visited) := by
  intro nbs
  induction nbs with
  | nil => intro states e; exact Or.inl rfl
  | cons nb rest ih =>
    intro states e
    cases ht : isNodeTile map nb with
    | none =>
      rw [visitNeighbors_cons_none map visited nb rest states ht]
      rcases ih states e with h | ⟨h, nb', hmem, rest'⟩
      · exact Or.inl h
      · exact Or.inr ⟨h, nb', List.mem_cons_of_mem _ hmem, rest'⟩
    | some e' =>
      by_cases hv : nb ∈ visited
      · rw [visitNeighbors_cons_visited map visited nb rest states e' ht hv]
        rcases ih states e with h | ⟨h, nb', hmem, rest'⟩
        · exact Or.inl h
        · exact Or.inr ⟨h, nb', List.mem_cons_of_mem _ hmem, rest'⟩
      · rw [visitNeighbors_cons_new map visited nb rest states e' ht hv]
        set states1 : States := fun x =>
          if x = e' then (states x).map (fun _ => CyberState.idle) else states x
          with hstates1
        by_cases he : e = e'
        · subst he
          have h1 : states1 e = (states e).map (fun _ => CyberState.idle) := by
            rw [hstates1]
            simp
          rcases ih states1 e with h | ⟨h, _, _, _⟩
          · exact Or.inr ⟨h.trans h1, nb, List.mem_cons_self _ _, ht, hv⟩
          · refine Or.inr ⟨?_, nb, List.mem_cons_self _ _, ht, hv⟩
            rw [h, h1, map_idle_idem]
        · have h1 : states1 e = states e := by
            rw [hstates1]
            simp [he]
          rcases ih states1 e with h | ⟨h, nb', hmem, rest'⟩
          · exact Or.inl (h.trans h1)
          · exact Or.inr ⟨by rw [h, h1], nb',
              List.mem_cons_of_mem _ hmem, rest'⟩

/-- Every pushed cell is one of the scanned neighbors, holds a node, and
was not yet visited. -/
theorem visitNeighbors_pushes (map : Grid) (visited : List Hex) :
    ∀ (nbs : List Hex) (states : States),
    ∀ nb' ∈ (visitNeighbors map visited nbs states).2,
    nb' ∈ nbs ∧ (isNodeTile map nb').isSome ∧ nb' ∉ visited := by
  intro nbs
  induction nbs with
  | nil => intro states nb' h; cases h
  | cons nb rest ih =>
    intro states nb' hmem
    cases ht : isNodeTile map nb with
    | none =>
      rw [visitNeighbors_cons_none map visited nb rest states ht] at hmem
      obtain ⟨h1, h2, h3⟩ := ih states nb' hmem
      exact ⟨List.mem_cons_of_mem _ h1, h2, h3⟩
    | some e' =>
      by_cases hv : nb ∈ visited
      · rw [visitNeighbors_cons_visited map visited nb rest states e' ht hv] at hmem
        obtain ⟨h1, h2, h3⟩ := ih states nb' hmem
        exact ⟨List.mem_cons_of_mem _ h1, h2, h3⟩
      · rw [visitNeighbors_cons_new map visited nb rest states e' ht hv] at hmem
        rcases List.mem_append.mp hmem with hin | hlast
        · obtain ⟨h1, h2, h3⟩ := ih _ nb' hin
          exact ⟨List.mem_cons_of_mem _ h1, h2, h3⟩
        · rcases List.mem_singleton.mp hlast with rfl
          exact ⟨List.mem_cons_self _ _, by rw [ht]; rfl, hv⟩

/-- Conversely, every scanned unvisited node cell is pushed. -/
theorem visitNeighbors_pushes_complete (map : Grid) (visited : List Hex) :
    ∀ (nbs : List Hex) (states : States),
    ∀ nb ∈ nbs, (isNodeTile map nb).isSome → nb ∉ visited →
    nb ∈ (visitNeighbors map visited nbs states).2 := by
  intro nbs
  induction nbs with
  | nil => intro states nb h; cases h
  | cons nb0 rest ih =>
    intro states nb hmem hsome hv
    rcases List.mem_cons.mp hmem with rfl | htail
    · cases ht : isNodeTile map nb with
      | none => rw [ht] at hsome; cases hsome
      | some e' =>
        rw [visitNeighbors_cons_new map visited nb rest states e' ht hv]
        exact List.mem_append_right _ (List.mem_singleton.mpr rfl)
    · cases ht : isNodeTile map nb0 with
      | none =>
        rw [visitNeighbors_cons_none map visited nb0 rest states ht]
        exact ih states nb htail hsome hv
      | some e' =>
        by_cases hv0 : nb0 ∈ visited
        · rw [visitNeighbors_cons_visited map visited nb0 rest states e' ht hv0]
          exact ih states nb htail hsome hv
        · rw [visitNeighbors_cons_new map visited nb0 rest states e' ht hv0]
          exact List.mem_append_left _ (ih _ nb htail hsome hv)

/-- Every scanned unvisited node cell's occupant ends the loop idled. -/
theorem visitNeighbors_idles (map : Grid) (visited : List Hex) :
    ∀ (nbs : List Hex) (states : States),
    ∀ nb ∈ nbs, ∀ e, isNodeTile map nb = some e → nb ∉ visited →
    (visitNeighbors map visited nbs states).1 e
      = (states e).map (fun _ => CyberState.idle) := by
  intro nbs
  induction nbs with
  | nil => intro states nb h; cases h
  | cons nb0 rest ih =>
    intro states nb hmem e hnode hv
    rcases List.mem_cons.mp hmem with rfl | htail
    · rw [visitNeighbors_cons_new map visited nb rest states e hnode hv]
      set states1 : States := fun x =>
        if x = e then (states x).map (fun _ => CyberState.idle) else states x
        with hstates1
      have h1 : states1 e = (states e).map (fun _ => CyberState.idle) := by
        rw [hstates1]
        simp
      rcases visitNeighbors_states map visited rest states1 e with h | ⟨h, _⟩
      · exact h.trans h1
      · rw [h, h1, map_idle_idem]
    · cases ht : isNodeTile map nb0 with
      | none =>
        rw [visitNeighbors_cons_none map visited nb0 rest states ht]
        exact ih states nb htail e hnode hv
      | some e0 =>
        by_cases hv0 : nb0 ∈ visited
        · rw [visitNeighbors_cons_visited map visited nb0 rest states e0 ht hv0]
          exact ih states nb htail e hnode hv
        · rw [visitNeighbors_cons_new map visited nb0 rest states e0 ht hv0]
          set states1 : States := fun x =>
            if x = e0 then (states x).map (fun _ => CyberState.idle) else states x
            with hstates1
          have h1 : states1 e = (states e).map (fun _ => CyberState.idle)
              ∨ states1 e = states e := by
            by_cases he : e = e0
            · subst he
              exact Or.inl (by rw [hstates1]; simp)
            · exact Or.inr (by rw [hstates1]; simp [he])
          have h2 := ih states1 nb htail e hnode hv
          rcases h1 with h1 | h1
          · rw [h2, h1, map_idle_idem]
          · rw [h2, h1]

/-- Unfolding equation: the traversal finishes on an empty stack. -/
theorem pruneLoop_nil (map : Grid) (fuel : Nat) (visited : List Hex)
    (states : States) :
    pruneLoop map (fuel + 1) visited [] states = some (states, visited) := rfl

/-- Unfolding equation: one pop of the traversal stack. -/
theorem pruneLoop_cons (map : Grid) (fuel : Nat) (visited : List Hex)
    (tile : Hex) (rest : List Hex) (states : States) :
    pruneLoop map (fuel + 1) visited (tile :: rest) states
      = pruneLoop map fuel (tile :: visited)
          ((visitNeighbors map (tile :: visited) (hexNeighbors tile) states).2
            ++ rest)
          (visitNeighbors map (tile :: visited) (hexNeighbors tile) states).1 :=
  rfl

/-- Soundness of the traversal: when the stack holds only the start cell
and cells reachable from it, a completed run either leaves an entity's
state alone or idles it, and it only idles occupants of reachable node
cells. -/
theorem pruneLoop_sound (map : Grid) (start : Hex) :
    ∀ (fuel : Nat) (visited toVisit : List Hex) (states : States)
      (out : States × List Hex),
    pruneLoop map fuel visited toVisit states = some out →
    (∀ t ∈ toVisit, t = start ∨ Reach map start t) →
    ∀ e, out.1 e = states e
      ∨ (out.1 e = (states e).map (fun _ => CyberState.idle)
         ∧ ∃ t, Reach map start t ∧ isNodeTile map t = some e) := by
  intro fuel
  induction fuel with
  | zero => intro visited toVisit states out h; cases h
  | succ fuel ih =>
    intro visited toVisit states out hrun hinv e
    cases toVisit with
    | nil =>
      rw [pruneLoop_nil] at hrun
      injection hrun with hrun
      subst hrun
      exact Or.inl rfl
    | cons tile rest =>
      rw [pruneLoop_cons] at hrun
      have htile : tile = start ∨ Reach map start tile :=
        hinv tile (List.mem_cons_self _ _)
      have hinv' : ∀ t ∈ (visitNeighbors map (tile :: visited)
          (hexNeighbors tile) states).2 ++ rest,
          t = start ∨ Reach map start t := by
        intro t hmem
        rcases List.mem_append.mp hmem with hp | hr
        · obtain ⟨hnbmem, hsome, _⟩ := visitNeighbors_pushes map
            (tile :: visited) (hexNeighbors tile) states t hp
          rcases htile with rfl | hreach
          · exact Or.inr (Reach.base hnbmem hsome)
          · exact Or.inr (Reach.step hreach hnbmem hsome)
        · exact hinv t (List.mem_cons_of_mem _ hr)
      have hrec := ih (tile :: visited) _ _ out hrun hinv' e
      rcases hrec with h | ⟨h, prov⟩
      · rcases visitNeighbors_states map (tile :: visited) (hexNeighbors tile)
            states e with h2 | ⟨h2, nb, hnbmem, hnode, _⟩
        · exact Or.inl (h.trans h2)
        · have hreach : Reach map start nb := by
            rcases htile with rfl | hreach
            · exact Reach.base hnbmem (by rw [hnode]; rfl)
            · exact Reach.step hreach hnbmem (by rw [hnode]; rfl)
          exact Or.inr ⟨h.trans h2, nb, hreach, hnode⟩
      · rcases visitNeighbors_states map (tile :: visited) (hexNeighbors tile)
            states e with h2 | ⟨h2, _⟩
        · exact Or.inr ⟨by rw [h, h2], prov⟩
        · exact Or.inr ⟨by rw [h, h2, map_idle_idem], prov⟩

/-- The cell's occupant (if any) currently holds no state or `Idle`. -/
def IdleTile (map : Grid) (states : States) (t : Hex) : Prop :=
  ∀ e, isNodeTile map t = some e →
    states e = none ∨ states e = some CyberState.idle

/-- Idled cells stay idled across further neighbor scans. -/
theorem IdleTile_mono {map : Grid} {visited nbs : List Hex} {states : States}
    {t : Hex} (h : IdleTile map states t) :
    IdleTile map (visitNeighbors map visited nbs states).1 t := by
  intro e he
  rcases visitNeighbors_states map visited nbs states e with h2 | ⟨h2, _⟩
  · rw [h2]
    exact h e he
  · rw [h2]
    rcases h e he with h3 | h3 <;> rw [h3] <;> simp

/-- Completeness of the traversal: a completed run ends with a visited set
that contains the start, is closed under steps onto node cells, and whose
node occupants are all idled. -/
theorem pruneLoop_complete (map : Grid) (start : Hex) :
    ∀ (fuel : Nat) (visited toVisit : List Hex) (states : States)
      (out : States × List Hex),
    pruneLoop map fuel visited toVisit states = some out →
    (∀ s ∈ visited, ∀ nb ∈ hexNeighbors s, (isNodeTile map nb).isSome →
        (nb ∈ visited ∨ nb ∈ toVisit)) →
    (∀ t, (t ∈ visited ∨ t ∈ toVisit) → IdleTile map states t) →
    (start ∈ visited ∨ start ∈ toVisit) →
    (∀ s ∈ out.2, ∀ nb ∈ hexNeighbors s, (isNodeTile map nb).isSome →
        nb ∈ out.2)
    ∧ (∀ t ∈ out.2, IdleTile map out.1 t)
    ∧ start ∈ out.2 := by
  intro fuel
  induction fuel with
  | zero => intro visited toVisit states out h; cases h
  | succ fuel ih =>
    intro visited toVisit states out hrun hI1 hI2 hI3
    cases toVisit with
    | nil =>
      rw [pruneLoop_nil] at hrun
      injection hrun with hrun
      subst hrun
      refine ⟨?_, ?_, ?_⟩
      · intro s hs nb hnb hsome
        rcases hI1 s hs nb hnb hsome with h | h
        · exact h
        · cases h
      · intro t ht
        exact hI2 t (Or.inl ht)
      · rcases hI3 with h | h
        · exact h
        · cases h
    | cons tile rest =>
      rw [pruneLoop_cons] at hrun
      have hI1' : ∀ s ∈ tile :: visited, ∀ nb ∈ hexNeighbors s,
          (isNodeTile map nb).isSome →
          (nb ∈ tile :: visited
            ∨ nb ∈ (visitNeighbors map (tile :: visited) (hexNeighbors tile)
                states).2 ++ rest) := by
        intro s hs nb hnb hsome
        rcases List.mem_cons.mp hs with rfl | hsv
        · by_cases hv : nb ∈ s :: visited
          · exact Or.inl hv
          · exact Or.inr (List.mem_append_left _
              (visitNeighbors_pushes_complete map (s :: visited)
                (hexNeighbors s) states nb hnb hsome hv))
        · rcases hI1 s hsv nb hnb hsome with h | h
          · exact Or.inl (List.mem_cons_of_mem _ h)
          · rcases List.mem_cons.mp h with rfl | hr
            · exact Or.inl (List.mem_cons_self _ _)
            · exact Or.inr (List.mem_append_right _ hr)
      have hI2' : ∀ t, (t ∈ tile :: visited
          ∨ t ∈ (visitNeighbors map (tile :: visited) (hexNeighbors tile)
              states).2 ++ rest) →
          IdleTile map (visitNeighbors map (tile :: visited)
            (hexNeighbors tile) states).1 t := by
        intro t ht
        rcases ht with hvis | htv
        · rcases List.mem_cons.mp hvis with rfl | hold
          · exact IdleTile_mono (hI2 t (Or.inr (List.mem_cons_self _ _)))
          · exact IdleTile_mono (hI2 t (Or.inl hold))
        · rcases List.mem_append.mp htv with hp | hr
          · intro e he
            obtain ⟨hnbmem, _, hnv⟩ := visitNeighbors_pushes map
              (tile :: visited) (hexNeighbors tile) states t hp
            rw [visitNeighbors_idles map (tile :: visited) (hexNeighbors tile)
              states t hnbmem e he hnv]
            cases states e <;> simp
          · exact IdleTile_mono (hI2 t (Or.inr (List.mem_cons_of_mem _ hr)))
      have hI3' : start ∈ tile :: visited
          ∨ start ∈ (visitNeighbors map (tile :: visited) (hexNeighbors tile)
              states).2 ++ rest := by
        rcases hI3 with h | h
        · exact Or.inl (List.mem_cons_of_mem _ h)
        · rcases List.mem_cons.mp h with rfl | hr
          · exact Or.inl (List.mem_cons_self _ _)
          · exact Or.inr (List.mem_append_right _ hr)
      exact ih (tile :: visited) _ _ out hrun hI1' hI2' hI3'

/-- Reachable cells all lie in a set containing the start and closed under
steps onto node cells. -/
theorem reach_mem_closed (map : Grid) (start : Hex) (S : List Hex)
    (hstart : start ∈ S)
    (hclosed : ∀ s ∈ S, ∀ nb ∈ hexNeighbors s, (isNodeTile map nb).isSome →
        nb ∈ S) :
    ∀ t, Reach map start t → t ∈ S := by
  intro t h
  induction h with
  | base hnb hsome => exact hclosed start hstart _ hnb hsome
  | step hr hnb hsome ih => exact hclosed _ ih _ hnb hsome

/-- One heart's completed traversal: it idles exactly the occupants of
cells reachable from the heart, and leaves everything else alone. -/
theorem pruneHeart_spec (map : Grid) (fuel : Nat) (start : Hex)
    (states out : States)
    (hrun : pruneHeart map fuel start states = some out)
    (hstart : isNodeTile map start = none) :
    (∀ e, out e = states e
      ∨ (out e = (states e).map (fun _ => CyberState.idle)
         ∧ ∃ t, Reach map start t ∧ isNodeTile map t = some e))
    ∧ (∀ t, Reach map start t → ∀ e, isNodeTile map t = some e →
        (out e = none ∨ out e = some CyberState.idle)) := by
  unfold pruneHeart at hrun
  cases hp : pruneLoop map fuel [] [start] states with
  | none => rw [hp] at hrun; cases hrun
  | some pr =>
    rw [hp] at hrun
    injection hrun with hrun
    subst hrun
    constructor
    · intro e
      exact pruneLoop_sound map start fuel [] [start] states pr hp
        (fun t ht => Or.inl (List.mem_singleton.mp ht)) e
    · intro t hreach e he
      have hc := pruneLoop_complete map start fuel [] [start] states pr hp
        (fun s hs => absurd hs (List.not_mem_nil s))
        (fun t' ht' => by
          rcases ht' with h | h
          · cases h
          · rcases List.mem_singleton.mp h with rfl
            intro e' he'
            rw [hstart] at he'
            cases he')
        (Or.inr (List.mem_singleton.mpr rfl))
      exact hc.2.1 t (reach_mem_closed map start pr.2 hc.2.2 hc.1 t hreach) e he

/-- A failed traversal poisons the rest of the heart fold. -/
theorem foldHearts_none (map : Grid) (fuel : Nat) :
    ∀ (hearts : List Hex),
    hearts.foldl (fun acc h => acc.bind (pruneHeart map fuel h)) none
      = none := by
  intro hearts
  induction hearts with
  | nil => rfl
  | cons hp hps ih => exact ih

/-- Folding all hearts' traversals over an intermediate state: only
reachable node occupants are idled, and all of them are. -/
theorem foldHearts_spec (map : Grid) (fuel : Nat) :
    ∀ (hearts : List Hex) (s0 states' : States),
    hearts.foldl (fun acc h => acc.bind (pruneHeart map fuel h)) (some s0)
      = some states' →
    (∀ hp ∈ hearts, isNodeTile map hp = none) →
    ∀ e,
      (states' e = s0 e
        ∨ (states' e = (s0 e).map (fun _ => CyberState.idle)
           ∧ ∃ hp ∈ hearts, ∃ t, Reach map hp t ∧ isNodeTile map t = some e))
      ∧ ((∃ hp ∈ hearts, ∃ t, Reach map hp t ∧ isNodeTile map t = some e) →
          (states' e = none ∨ states' e = some CyberState.idle)) := by
  intro hearts
  induction hearts with
  | nil =>
    intro s0 states' hrun _ e
    injection hrun with hrun
    subst hrun
    refine ⟨Or.inl rfl, ?_⟩
    rintro ⟨hp, hhp, -⟩
    exact absurd hhp (List.not_mem_nil hp)
  | cons hp hps ih =>
    intro s0 states' hrun hhearts e
    rw [List.foldl_cons] at hrun
    simp only [Option.some_bind] at hrun
    cases h1 : pruneHeart map fuel hp s0 with
    | none =>
      rw [h1, foldHearts_none map fuel hps] at hrun
      cases hrun
    | some s1 =>
      rw [h1] at hrun
      have hih := ih s1 states' hrun
        (fun hp' hm => hhearts hp' (List.mem_cons_of_mem _ hm)) e
      have hhead := pruneHeart_spec map fuel hp s0 s1 h1
        (hhearts hp (List.mem_cons_self _ _))
      constructor
      · rcases hih.1 with ha | ⟨ha, hp', hmem', prov'⟩
        · rcases hhead.1 e with hb | ⟨hb, prov⟩
          · exact Or.inl (ha.trans hb)
          · exact Or.inr ⟨ha.trans hb, hp, List.mem_cons_self _ _, prov⟩
        · rcases hhead.1 e with hb | ⟨hb, _⟩
          · exact Or.inr ⟨by rw [ha, hb],
              hp', List.mem_cons_of_mem _ hmem', prov'⟩
          · exact Or.inr ⟨by rw [ha, hb, map_idle_idem],
              hp', List.mem_cons_of_mem _ hmem', prov'⟩
      · rintro ⟨hp', hmem', t, hreach, hnode⟩
        rcases List.mem_cons.mp hmem' with rfl | htail
        · have hni : s1 e = none ∨ s1 e = some CyberState.idle :=
            hhead.2 t hreach e hnode
          rcases hih.1 with ha | ⟨ha, _⟩
          · rw [ha]
            exact hni
          · rw [ha]
            rcases hni with hni | hni <;> rw [hni] <;> simp
        · exact hih.2 ⟨hp', htail, t, hreach, hnode⟩

/-- C2 (amended): a completed reachability-pruning pass sets *every* node
instance reached from some heart to `Idle` — regardless of its previous
state, including a cached `Done` or an in-flight `ActivationRequest`, both
of which the pass discards — and forces every node not reached by any
heart to `Disabled`. (The pass first disables everything, then re-idles the
reached nodes.) Heart cells themselves hold heart tiles, not node tiles. -/
theorem disable_disconnected_spec (map : Grid) (fuel : Nat)
    (hearts : List Hex) (states states' : States)
    (hhearts : ∀ hp ∈ hearts, isNodeTile map hp = none)
    (hrun : disable_disconnected map fuel hearts states = some states') :
    (∀ e, (∃ hp ∈ hearts, ∃ t, Reach map hp t ∧ isNodeTile map t = some e) →
      states' e = (states e).map (fun _ => CyberState.idle))
  ∧ (∀ e, ¬ (∃ hp ∈ hearts, ∃ t, Reach map hp t ∧ isNodeTile map t = some e) →
      states' e = (states e).map (fun _ => CyberState.disabled)) := by
  unfold disable_disconnected at hrun
  have h := foldHearts_spec map fuel hearts
    (fun e => (states e).map (fun _ => CyberState.disabled)) states' hrun
    hhearts
  constructor
  · intro e hre
    have h1 := (h e).1
    have h2 := (h e).2 hre
    cases hs : states e with
    | none =>
      rcases h1 with h1 | ⟨h1, _⟩ <;> rw [h1] <;> simp [hs]
    | some x =>
      rcases h2 with h2 | h2
      · rcases h1 with h1 | ⟨h1, _⟩ <;> rw [h1] at h2 <;> simp [hs] at h2
      · rw [h2]
        rfl
  · intro e hnre
    rcases (h e).1 with h1 | ⟨_, prov⟩
    · exact h1
    · exact absurd prov hnre

/-- C2 fixture grid: a heart at the origin, a connected node (entity 1)
east of it, and a disconnected node (entity 2) far away. -/
def fxMapC2 : Grid := fun h =>
  if h = ⟨0, 0⟩ then some (TileType.heart 99)
  else if h = ⟨1, 0⟩ then some (TileType.cyberNode 0 1)
  else if h = ⟨5, 5⟩ then some (TileType.cyberNode 0 2)
  else none

/-- C2 fixture states: the connected node holds a cached `Done` value, the
disconnected one is `Idle`. -/
def fxStatesC2 : States := fun e =>
  if e = 1 then some (.done (.ok .empty))
  else if e = 2 then some .idle
  else none

/-- Witness for C2 on the fixture: the pass completes, the reached node
ends `Idle` and the unreached one ends `Disabled`. -/
theorem disable_disconnected_spec_witness :
    (disable_disconnected fxMapC2 10 [⟨0, 0⟩] fxStatesC2).map (fun f => f 1)
      = some (some CyberState.idle)
  ∧ (disable_disconnected fxMapC2 10 [⟨0, 0⟩] fxStatesC2).map (fun f => f 2)
      = some (some CyberState.disabled) := by
  obtain ⟨f, hf⟩ : ∃ f,
      disable_disconnected fxMapC2 10 [⟨0, 0⟩] fxStatesC2 = some f :=
    ⟨_, rfl⟩
  have hspec := disable_disconnected_spec fxMapC2 10 [⟨0, 0⟩] fxStatesC2 f
    (by
      intro hp hhp
      rcases List.mem_singleton.mp hhp with rfl
      rfl)
    hf
  have hreach1 : Reach fxMapC2 ⟨0, 0⟩ ⟨1, 0⟩ :=
    Reach.base (by decide) (by decide)
  have honly : ∀ t, Reach fxMapC2 ⟨0, 0⟩ t → t = ⟨1, 0⟩ := by
    intro t h
    induction h with
    | base hnb hsome =>
      simp only [hexNeighbors, hexDirections, Hex.add, List.map_cons,
        List.map_nil, List.mem_cons, List.not_mem_nil, or_false] at hnb
      rcases hnb with rfl | rfl | rfl | rfl | rfl | rfl <;>
        first
          | rfl
          | exact absurd hsome (by decide)
    | step _ hnb hsome ih =>
      subst ih
      simp only [hexNeighbors, hexDirections, Hex.add, List.map_cons,
        List.map_nil, List.mem_cons, List.not_mem_nil, or_false] at hnb
      rcases hnb with rfl | rfl | rfl | rfl | rfl | rfl <;>
        exact absurd hsome (by decide)
  have h1 : f 1 = some CyberState.idle := by
    have := hspec.1 1
      ⟨⟨0, 0⟩, List.mem_singleton.mpr rfl, ⟨1, 0⟩, hreach1, rfl⟩
    rw [this]
    rfl
  have h2 : f 2 = some CyberState.disabled := by
    have hn2 : ¬ (∃ hp ∈ [(⟨0, 0⟩ : Hex)], ∃ t,
        Reach fxMapC2 hp t ∧ isNodeTile fxMapC2 t = some 2) := by
      rintro ⟨hp, hhp, t, hreach, hnode⟩
      rcases List.mem_singleton.mp hhp with rfl
      rw [honly t hreach] at hnode
      exact absurd hnode (by decide)
    have := hspec.2 2 hn2
    rw [this]
    rfl
  simp [hf, h1, h2]

/-- Counterexample for C2 as stated: a node reachable from the heart that
held a cached `Done(Ok(Empty))` before the pass is reset to `Idle` — its
state is not left unchanged. -/
theorem disable_disconnected_resets_done :
    (disable_disconnected fxMapC2 10 [⟨0, 0⟩] fxStatesC2).map (fun f => f 1)
      = some (some CyberState.idle)
  ∧ fxStatesC2 1 = some (.done (.ok .empty))
  ∧ some CyberState.idle ≠ some (CyberState.done (CRes.ok Val.empty)) := by
  refine ⟨rfl, rfl, by simp⟩

end Cyberspace
